import Mathlib

/-!
Shallow embedding of the DLGE dialogue-container codec of tonytools-rs
(src/hmlanguages/dlge.rs and the utilities it uses), together with proofs
settling the specification claims about it.

Modelling conventions:
- machine integers are Nat (or Int for the i32 index counters), with
  explicit truncation modulo 2^w where the Rust code can wrap or truncate;
- byte buffers are List Nat with every element < 256 by construction;
- serde_json values are modelled by the inductive JVal with rationals in
  place of f64 (every weight computation appearing in a theorem below is
  exact in IEEE f64, so the rational model agrees with the code there);
- fallible Rust code returns Except; a Rust panic (unwrap on None,
  out-of-bounds indexing, assertion in the cipher) is modelled by the
  distinguished error RunErr.panicked; loops whose bound is data-dependent
  take an explicit fuel argument and report exhaustion as RunErr.fuel,
  an outcome the real (terminating) loops never exhibit when the fuel is
  at least the bound used in the theorems below.
-/

namespace TT

/-! ## Small numeric helpers -/

/-- Truncation to 32 bits, used wherever the Rust code wraps a u32. -/
def u32 (n : Nat) : Nat := n % 4294967296

/-- Little-endian byte decomposition of a value into a fixed width. -/
def leBytes : Nat → Nat → List Nat
  | 0, _ => []
  | w + 1, v => (v % 256) :: leBytes w (v / 256)

/-- Little-endian value of a byte list. -/
def leValue : List Nat → Nat
  | [] => 0
  | b :: bs => b % 256 + 256 * leValue bs

/-- Uppercase hex digit. -/
def hexDigitChar (n : Nat) : Char :=
  if n < 10 then Char.ofNat (48 + n) else Char.ofNat (55 + n)

/-- Number of hex digits needed for a u32 value. -/
def hexLen (n : Nat) : Nat :=
  if n < 16 then 1 else if n < 256 then 2 else if n < 4096 then 3
  else if n < 65536 then 4 else if n < 1048576 then 5 else if n < 16777216 then 6
  else if n < 268435456 then 7 else 8

/-- The last k hex digits of n, most significant first. -/
def hexDigitsAux : Nat → Nat → List Char
  | 0, _ => []
  | k + 1, n => hexDigitsAux k (n / 16) ++ [hexDigitChar (n % 16)]

/-- Rust format "{:0wX}": uppercase hex, zero padded to the given width. -/
def natToHex (width n : Nat) : String :=
  String.mk (hexDigitsAux (max width (hexLen n)) n)

/-- Value of one hex digit character (both cases), as in from_str_radix. -/
def hexDigitVal (c : Char) : Option Nat :=
  if 48 ≤ c.toNat ∧ c.toNat ≤ 57 then some (c.toNat - 48)
  else if 65 ≤ c.toNat ∧ c.toNat ≤ 70 then some (c.toNat - 55)
  else if 97 ≤ c.toNat ∧ c.toNat ≤ 102 then some (c.toNat - 87)
  else none

/-- Accumulating hex parse. -/
def hexFold : List Char → Nat → Option Nat
  | [], acc => some acc
  | c :: cs, acc =>
    match hexDigitVal c with
    | some v => hexFold cs (acc * 16 + v)
    | none => none

/-- Models u32::from_str_radix(s, 16): optional leading plus sign, at least
one hex digit, and an overflow error above u32::MAX. -/
def fromStrRadix16 (s : String) : Option Nat :=
  let cs :=
    match s.data with
    | '+' :: rest => rest
    | l => l
  match cs with
  | [] => none
  | _ =>
    match hexFold cs 0 with
    | some v => if v < 4294967296 then some v else none
    | none => none

/-! ## UTF-8 (Rust String::from_utf8 and str::as_bytes) -/

/-- UTF-8 encoding of one Unicode scalar value. -/
def utf8EncodeChar (c : Nat) : List Nat :=
  if c < 128 then [c]
  else if c < 2048 then [192 + c / 64, 128 + c % 64]
  else if c < 65536 then [224 + c / 4096, 128 + (c / 64) % 64, 128 + c % 64]
  else [240 + c / 262144, 128 + (c / 4096) % 64, 128 + (c / 64) % 64, 128 + c % 64]

/-- The UTF-8 bytes of a Lean string, as Rust str::as_bytes. -/
def strBytes (s : String) : List Nat :=
  (s.data.map (fun c => utf8EncodeChar c.toNat)).flatten

/-- Strict UTF-8 decoding as in Rust String::from_utf8: rejects overlong
forms, surrogates and values above 0x10FFFF. -/
def utf8Decode : List Nat → Option (List Char)
  | [] => some []
  | b :: rest =>
    if b < 128 then (utf8Decode rest).map (fun cs => Char.ofNat b :: cs)
    else if b < 194 then none
    else if b < 224 then
      match rest with
      | b1 :: r =>
        if 128 ≤ b1 ∧ b1 < 192 then
          (utf8Decode r).map (fun cs => Char.ofNat ((b - 192) * 64 + (b1 - 128)) :: cs)
        else none
      | [] => none
    else if b < 240 then
      match rest with
      | b1 :: b2 :: r =>
        let lo1 := if b = 224 then 160 else 128
        let hi1 := if b = 237 then 160 else 192
        if lo1 ≤ b1 ∧ b1 < hi1 ∧ 128 ≤ b2 ∧ b2 < 192 then
          (utf8Decode r).map
            (fun cs => Char.ofNat ((b - 224) * 4096 + (b1 - 128) * 64 + (b2 - 128)) :: cs)
        else none
      | _ => none
    else if b < 245 then
      match rest with
      | b1 :: b2 :: b3 :: r =>
        let lo1 := if b = 240 then 144 else 128
        let hi1 := if b = 244 then 144 else 192
        if lo1 ≤ b1 ∧ b1 < hi1 ∧ 128 ≤ b2 ∧ b2 < 192 ∧ 128 ≤ b3 ∧ b3 < 192 then
          (utf8Decode r).map
            (fun cs =>
              Char.ofNat ((b - 240) * 262144 + (b1 - 128) * 4096 + (b2 - 128) * 64 + (b3 - 128)) :: cs)
        else none
      | _ => none
    else none

/-! ## crc32fast::hash (standard reflected CRC-32, IEEE polynomial) -/

/-- One bit step of the reflected CRC-32. -/
def crc32Step (crc : Nat) : Nat :=
  if crc % 2 = 1 then Nat.xor (crc / 2) 0xEDB88320 else crc / 2

/-- Fold one byte into the CRC state. -/
def crc32Byte (crc b : Nat) : Nat :=
  Nat.iterate crc32Step 8 (Nat.xor crc (b % 256))

/-- crc32fast::hash over a byte list. -/
def crc32 (bytes : List Nat) : Nat :=
  Nat.xor (bytes.foldl crc32Byte 0xFFFFFFFF) 0xFFFFFFFF

/-- crc32fast::hash(s.as_bytes()). -/
def crc32Str (s : String) : Nat := crc32 (strBytes s)

/-! ## XTEA (util/cipher.rs over the extended_tea crate, 32 cycles,
little-endian 8-byte blocks, fixed key material) -/

/-- The fixed XTEA key of util/cipher.rs. -/
def xteaKey : Nat → Nat
  | 0 => 0x53527737
  | 1 => 0x7506499E
  | 2 => 0xBD39AEE3
  | _ => 0xA59E7268

def xteaDelta : Nat := 0x9E3779B9

/-- Wrapping 32-bit addition. -/
def u32add (a b : Nat) : Nat := (a + b) % 4294967296

/-- Wrapping 32-bit subtraction. -/
def u32sub (a b : Nat) : Nat := (a % 4294967296 + 4294967296 - b % 4294967296) % 4294967296

/-- The XTEA mixing term (v shl 4) xor (v shr 5) on u32. -/
def xteaMix (v : Nat) : Nat := Nat.xor ((v * 16) % 4294967296) (v / 32)

/-- One XTEA encipher cycle on (v0, v1, sum). -/
def xteaEncipherRound (p : Nat × Nat × Nat) : Nat × Nat × Nat :=
  let v0 := u32add p.1 (Nat.xor (u32add (xteaMix p.2.1) p.2.1) (u32add p.2.2 (xteaKey (p.2.2 % 4))))
  let sum := u32add p.2.2 xteaDelta
  let v1 := u32add p.2.1 (Nat.xor (u32add (xteaMix v0) v0) (u32add sum (xteaKey ((sum / 2048) % 4))))
  (v0, v1, sum)

/-- XTEA encipher of one block, 32 cycles. -/
def xteaEncipherBlock (v0 v1 : Nat) : Nat × Nat :=
  let r := Nat.iterate xteaEncipherRound 32 (v0, v1, 0)
  (r.1, r.2.1)

/-- One XTEA decipher cycle on (v0, v1, sum). -/
def xteaDecipherRound (p : Nat × Nat × Nat) : Nat × Nat × Nat :=
  let v1 := u32sub p.2.1 (Nat.xor (u32add (xteaMix p.1) p.1) (u32add p.2.2 (xteaKey ((p.2.2 / 2048) % 4))))
  let sum := u32sub p.2.2 xteaDelta
  let v0 := u32sub p.1 (Nat.xor (u32add (xteaMix v1) v1) (u32add sum (xteaKey (sum % 4))))
  (v0, v1, sum)

/-- XTEA decipher of one block, 32 cycles. -/
def xteaDecipherBlock (v0 v1 : Nat) : Nat × Nat :=
  let r := Nat.iterate xteaDecipherRound 32 (v0, v1, (xteaDelta * 32) % 4294967296)
  (r.1, r.2.1)

/-- Split a byte list into (v0, v1) little-endian 8-byte blocks; a trailing
fragment shorter than 8 bytes is dropped (never reached: both call sites
only pass lengths divisible by 8). -/
def xteaBlocks : List Nat → List (Nat × Nat)
  | b0 :: b1 :: b2 :: b3 :: b4 :: b5 :: b6 :: b7 :: rest =>
    (leValue [b0, b1, b2, b3], leValue [b4, b5, b6, b7]) :: xteaBlocks rest
  | _ => []

/-- Reassemble blocks into bytes, little-endian. -/
def xteaUnblocks (bs : List (Nat × Nat)) : List Nat :=
  (bs.map (fun p => leBytes 4 p.1 ++ leBytes 4 p.2)).flatten

/-! ## Error model (hmlanguages/mod.rs LangError, plus panic and fuel) -/

inductive ByteReaderErr where
  | noBytes
deriving DecidableEq, Repr

/-- LangError of hmlanguages/mod.rs; payloads of external error types
(serde, ParseIntError, FromUtf8Error, ByteWriterError) are dropped. -/
inductive LangError where
  | invalidLanguageMap
  | didNotReachEOF
  | jsonError
  | unsupportedVersion
  | byteReaderError (e : ByteReaderErr)
  | byteWriterError
  | utf8Error
  | invalidContainer (n : Nat)
  | invalidReference (n : Nat)
  | parseIntError
  | invalidInput
deriving DecidableEq, Repr

/-- Outcome of running embedded code: a typed LangError, a Rust panic
(unwrap on None, out-of-bounds index, cipher length assertion), or fuel
exhaustion of the embedding (never the behaviour of the real, terminating
loops when given the fuel bounds used below). -/
inductive RunErr where
  | lang (e : LangError)
  | panicked
  | fuel
deriving DecidableEq, Repr

/-- Strips leading and trailing NUL characters, as trim_matches(char::from(0)). -/
def trimNulls (cs : List Char) : List Char :=
  ((cs.dropWhile (fun c => c = Char.ofNat 0)).reverse.dropWhile (fun c => c = Char.ofNat 0)).reverse

/-- util/cipher.rs xtea_decrypt: decipher, then strict UTF-8, then trim NULs.
The extended_tea block routine asserts the length is divisible by 8. -/
def xteaDecrypt (data : List Nat) : Except RunErr String :=
  if data.length % 8 ≠ 0 then .error .panicked
  else
    let out := xteaUnblocks ((xteaBlocks data).map (fun p => xteaDecipherBlock p.1 p.2))
    match utf8Decode out with
    | some cs => .ok (String.mk (trimNulls cs))
    | none => .error (.lang .utf8Error)

/-- util/cipher.rs xtea_encrypt: zero-pad the UTF-8 bytes to a multiple of 8
and encipher. -/
def xteaEncrypt (s : String) : List Nat :=
  let b := strBytes s
  let b := if b.length % 8 ≠ 0 then b ++ List.replicate (8 - b.length % 8) 0 else b
  xteaUnblocks ((xteaBlocks b).map (fun p => xteaEncipherBlock p.1 p.2))

/-! ## serde_json values (JVal), with f64 numbers modelled by rationals -/

inductive JVal where
  | jnull
  | jbool (b : Bool)
  | jnum (q : Rat)
  | jstr (s : String)
  | jarr (xs : List JVal)
  | jobj (m : List (String × JVal))

/-- Value::as_str. -/
def JVal.asStr : JVal → Option String
  | .jstr s => some s
  | _ => none

/-- Value::as_object (an object is its ordered field list here). -/
def JVal.asObj : JVal → Option (List (String × JVal))
  | .jobj m => some m
  | _ => none

/-- Value::is_string. -/
def JVal.isString : JVal → Bool
  | .jstr _ => true
  | _ => false

/-- Value::as_f64 (numbers only in this model). -/
def JVal.asF64 : JVal → Option Rat
  | .jnum q => some q
  | _ => none

/-- Lookup in a JSON object field list. -/
def objGet (m : List (String × JVal)) (k : String) : Option JVal :=
  (m.find? (fun p => p.1 = k)).map (fun p => p.2)

/-- Map::contains_key. -/
def objContains (m : List (String × JVal)) (k : String) : Bool :=
  (objGet m k).isSome

/-- Map::insert (replace an existing key in place, else append). -/
def objInsert (m : List (String × JVal)) (k : String) (v : JVal) : List (String × JVal) :=
  if objContains m k then m.map (fun p => if p.1 = k then (k, v) else p)
  else m ++ [(k, v)]

/-- serde_json escaping of one character inside a string literal. -/
def jsonEscapeChar (c : Char) : List Char :=
  if c = Char.ofNat 34 then [Char.ofNat 92, Char.ofNat 34]
  else if c = Char.ofNat 92 then [Char.ofNat 92, Char.ofNat 92]
  else if c = Char.ofNat 8 then [Char.ofNat 92, 'b']
  else if c = Char.ofNat 9 then [Char.ofNat 92, 't']
  else if c = Char.ofNat 10 then [Char.ofNat 92, 'n']
  else if c = Char.ofNat 12 then [Char.ofNat 92, 'f']
  else if c = Char.ofNat 13 then [Char.ofNat 92, 'r']
  else if c.toNat < 32 then
    [Char.ofNat 92, 'u', '0', '0', hexDigitChar (c.toNat / 16), hexDigitChar (c.toNat % 16)]
  else [c]

/-- serde_json rendering of a string, quotes included. -/
def jsonStrLit (s : String) : String :=
  String.mk (Char.ofNat 34 :: (s.data.map jsonEscapeChar).flatten ++ [Char.ofNat 34])

/-- Display of a JSON number. The Rust code prints an f64 here; the model
prints the rational (integral values with a trailing .0 as Rust does).
No theorem below evaluates this case. -/
def jsonNumLit (q : Rat) : String :=
  if q.den = 1 then toString q.num ++ ".0" else toString q

/-- serde_json Value::to_string, fuelled through nested arrays/objects.
The crucial behaviour for the claims: a string value renders WITH quotes. -/
def jsonToStr : Nat → JVal → String
  | 0, _ => ""
  | _ + 1, .jnull => "null"
  | _ + 1, .jbool true => "true"
  | _ + 1, .jbool false => "false"
  | _ + 1, .jnum q => jsonNumLit q
  | _ + 1, .jstr s => jsonStrLit s
  | f + 1, .jarr xs =>
    "[" ++ String.intercalate "," (xs.map (jsonToStr f)) ++ "]"
  | f + 1, .jobj m =>
    "\x7b" ++ String.intercalate "," (m.map (fun p => jsonStrLit p.1 ++ ":" ++ jsonToStr f p.2)) ++ "\x7d"

/-! ## Engine versions (lib.rs) and the symbol table (hashlanguages/hashlist.rs) -/

inductive Version where
  | h2016
  | h2
  | h3
  | hma
  | alpha
deriving DecidableEq, Repr

/-- The three bidirectional hash/symbol namespaces of HashList, modelled as
association lists with distinct keys on both sides. -/
structure HashList where
  tags : List (Nat × String)
  switches : List (Nat × String)
  lines : List (Nat × String)
deriving DecidableEq, Repr

/-- BiMap::get_by_left. -/
def getByLeft (m : List (Nat × String)) (k : Nat) : Option String :=
  (m.find? (fun p => p.1 = k)).map (fun p => p.2)

/-- BiMap::get_by_right. -/
def getByRight (m : List (Nat × String)) (s : String) : Option Nat :=
  (m.find? (fun p => p.2 = s)).map (fun p => p.1)

/-! ## The structured document (DlgeJson of dlge.rs)

The Rust WavFile / Random / Switch / Sequence structs are mutually
recursive with DlgeType through Vec<DlgeType>; Lean structures cannot take
part in a mutual inductive, so the three container structs are inlined as
constructor fields of DlgeType (field order and names preserved). -/

structure WavFileJ where
  wav_name : String
  cases : Option (List String)
  weight : Option JVal
  soundtag : String
  default_wav : Option String
  default_ffx : Option String
  languages : List (String × JVal)

inductive DlgeType where
  | wavFile (w : WavFileJ)
  | random (cases : Option (List String)) (containers : List DlgeType)
  | switch (switch_key default : String) (containers : List DlgeType)
  | sequence (containers : List DlgeType)
  | null

/-- i32::from(DlgeType) of dlge.rs: the binary type discriminant. -/
def DlgeType.tag : DlgeType → Nat
  | .wavFile _ => 1
  | .random _ _ => 2
  | .switch _ _ _ => 3
  | .sequence _ => 4
  | .null => 0x15

structure DlgeJson where
  schema : String
  hash : String
  ditl : String
  clng : String
  langmap : Option String
  root : DlgeType

/-! ## Resource metadata (util/rpkg.rs, the fields the codec reads) -/

structure ResourceDependency where
  hash : String
  flag : String
deriving DecidableEq, Repr

/-- The fields of rpkg::ResourceMeta consumed by DLGE::convert. The
surrounding serde parse of the meta JSON string is external and the meta
argument is passed already structured. -/
structure ResourceMeta where
  hash_value : String
  hash_path : Option String
  hash_reference_data : List ResourceDependency
deriving DecidableEq, Repr

/-- is_valid_hash of util/rpkg.rs: exactly 16 chars from 0-9A-F. -/
def isValidHash (s : String) : Bool :=
  s.length = 16 &&
    s.data.all (fun c => (48 ≤ c.toNat && c.toNat ≤ 57) || (65 ≤ c.toNat && c.toNat ≤ 70))

/-! ## The binary cursor (bitchomp ByteReader, little-endian), as used here -/

structure ByteReader where
  buf : List Nat
  pos : Nat
deriving DecidableEq, Repr

/-- cursor.len(): bytes remaining ahead of the cursor. -/
def ByteReader.remaining (r : ByteReader) : Nat := r.buf.length - r.pos

/-- cursor(): current absolute position. -/
def ByteReader.cursor (r : ByteReader) : Nat := r.pos

/-- size(): total buffer length. -/
def ByteReader.size (r : ByteReader) : Nat := r.buf.length

/-- Read n raw bytes; NoBytes when the buffer is too short. -/
def ByteReader.readN (r : ByteReader) (n : Nat) : Except RunErr (List Nat × ByteReader) :=
  if r.pos + n ≤ r.buf.length then
    .ok ((r.buf.drop r.pos).take n, ⟨r.buf, r.pos + n⟩)
  else .error (.lang (.byteReaderError .noBytes))

/-- read::<u8>. -/
def ByteReader.read8 (r : ByteReader) : Except RunErr (Nat × ByteReader) := do
  let (bs, r1) ← r.readN 1
  pure (leValue bs, r1)

/-- read::<u16>, little-endian. -/
def ByteReader.read16 (r : ByteReader) : Except RunErr (Nat × ByteReader) := do
  let (bs, r1) ← r.readN 2
  pure (leValue bs, r1)

/-- read::<u32>, little-endian. -/
def ByteReader.read32 (r : ByteReader) : Except RunErr (Nat × ByteReader) := do
  let (bs, r1) ← r.readN 4
  pure (leValue bs, r1)

/-- peek::<u8>: read without consuming. -/
def ByteReader.peek8 (r : ByteReader) : Except RunErr Nat := do
  let (v, _) ← r.read8
  pure v

/-- peek::<u32>: read without consuming. -/
def ByteReader.peek32 (r : ByteReader) : Except RunErr Nat := do
  let (v, _) ← r.read32
  pure v

/-- seek(pos): error when past the end of the buffer. -/
def ByteReader.seek (r : ByteReader) (p : Nat) : Except RunErr ByteReader :=
  if p > r.buf.length then .error (.lang (.byteReaderError .noBytes))
  else .ok ⟨r.buf, p⟩

/-- read_vec::<u8>: u32 length then that many bytes. -/
def ByteReader.readVec8 (r : ByteReader) : Except RunErr (List Nat × ByteReader) := do
  let (n, r1) ← r.read32
  r1.readN n

/-- Read n u32 values. -/
def ByteReader.readU32s : ByteReader → Nat → Except RunErr (List Nat × ByteReader)
  | r, 0 => .ok ([], r)
  | r, n + 1 => do
    let (v, r1) ← r.read32
    let (vs, r2) ← r1.readU32s n
    pure (v :: vs, r2)

/-- read_vec::<u32>: u32 count then that many u32 values. -/
def ByteReader.readVec32 (r : ByteReader) : Except RunErr (List Nat × ByteReader) := do
  let (n, r1) ← r.read32
  r1.readU32s n

/-! ## get_wav_name (dlge.rs) and its two lookahead regexes

The fancy_regex patterns are ([^\/]*(?=\.wav)) and ([^\/]*(?=\.animset)):
leftmost match position, and at that position the greedy longest slash-free
run followed immediately by the literal suffix. -/

/-- Literal list match at the head. -/
def leadsWith : List Char → List Char → Bool
  | [], _ => true
  | _ :: _, [] => false
  | p :: ps, c :: cs => p = c && leadsWith ps cs

/-- Greedy backtracking at one position: the longest k such that the first
k characters are slash-free and the suffix follows at offset k. -/
def greedyAt (suffix : List Char) (cs : List Char) : Nat → Option (List Char)
  | 0 => if leadsWith suffix cs then some [] else none
  | k + 1 =>
    if (cs.take (k + 1)).all (fun c => c ≠ '/') && leadsWith suffix (cs.drop (k + 1)) then
      some (cs.take (k + 1))
    else greedyAt suffix cs k

/-- Regex::find for the lookahead patterns above: first position with a
match, greedy at that position. -/
def findStem (suffix : List Char) : List Char → Option (List Char)
  | [] => greedyAt suffix [] 0
  | c :: cs =>
    match greedyAt suffix (c :: cs) (cs.length + 1) with
    | some m => some m
    | none => findStem suffix cs

/-- get_wav_name of dlge.rs. -/
def getWavName (wavHash ffxHash : String) (hash : Nat) : String :=
  if isValidHash wavHash || isValidHash ffxHash then natToHex 8 hash
  else
    match findStem ".wav".data wavHash.data with
    | some m => String.mk m
    | none =>
      match findStem ".animset".data ffxHash.data with
      | some m => String.mk m
      | none => natToHex 8 hash

/-! ## The codec instance (struct DLGE) -/

structure DLGE where
  hashlist : HashList
  version : Version
  lang_map : List String
  default_locale : String
  hex_precision : Bool
  custom_langmap : Bool
  depends : List (String × String)

/-- Default language maps of DLGE::new (vec_of_strings in dlge.rs). -/
def defaultLangMap : Version → Option (List String)
  | .h2016 => some ["xx", "en", "fr", "it", "de", "es", "ru", "mx", "br", "pl", "cn", "jp"]
  | .h2 => some ["xx", "en", "fr", "it", "de", "es", "ru", "mx", "br", "pl", "cn", "jp", "tc"]
  | .h3 => some ["xx", "en", "fr", "it", "de", "es", "ru", "cn", "tc", "jp"]
  | _ => none

/-- DLGE::new. -/
def DLGE.new (hashlist : HashList) (version : Version) (lang_map : Option (List String))
    (default_locale : Option String) (hex_precision : Bool) : Except LangError DLGE :=
  let custom_langmap := lang_map.isSome
  match lang_map, defaultLangMap version with
  | some map, _ =>
    .ok ⟨hashlist, version, map, default_locale.getD "en", hex_precision, custom_langmap, []⟩
  | none, some map =>
    .ok ⟨hashlist, version, map, default_locale.getD "en", hex_precision, custom_langmap, []⟩
  | none, none => .error .unsupportedVersion

/-! ## Generic container records (struct Metadata / Container of dlge.rs) -/

structure MetadataRec where
  type_index : Nat
  hashes : List Nat
deriving DecidableEq, Repr

structure ContainerRec where
  ctype : Nat
  group_hash : Nat
  default_hash : Nat
  metadata : List MetadataRec
deriving DecidableEq, Repr

/-- Read the metadata entries of a container record. -/
def readMetadataList : ByteReader → Nat → Except RunErr (List MetadataRec × ByteReader)
  | r, 0 => .ok ([], r)
  | r, n + 1 => do
    let (ti, r1) ← r.read16
    let (hs, r2) ← r1.readVec32
    let (rest, r3) ← readMetadataList r2 n
    pure (⟨ti, hs⟩ :: rest, r3)

/-- Container::read. -/
def ContainerRec.read (r : ByteReader) : Except RunErr (ContainerRec × ByteReader) := do
  let (t, r1) ← r.read8
  let (g, r2) ← r1.read32
  let (dh, r3) ← r2.read32
  let (n, r4) ← r3.read32
  let (ms, r5) ← readMetadataList r4 n
  pure (⟨t, g, dh, ms⟩, r5)

/-! ## The byte writer (bitchomp ByteWriter, little-endian): an accumulating
byte list -/

/-- append::<uN>: w bytes of v, little-endian. -/
def appendLE (buf : List Nat) (w v : Nat) : List Nat := buf ++ leBytes w v

/-- write_sized_vec over bytes: u32 length then the bytes. -/
def writeSizedBytes (buf : List Nat) (data : List Nat) : List Nat :=
  appendLE buf 4 data.length ++ data

/-- write_sized_vec over u32 values: u32 count then the values. -/
def writeSizedU32s (buf : List Nat) (vs : List Nat) : List Nat :=
  vs.foldl (fun b v => appendLE b 4 v) (appendLE buf 4 vs.length)

/-- Container::write. -/
def ContainerRec.write (c : ContainerRec) (buf : List Nat) : List Nat :=
  let b := appendLE (appendLE (appendLE (appendLE buf 1 c.ctype) 4 c.group_hash) 4 c.default_hash) 4 c.metadata.length
  c.metadata.foldl (fun b m => writeSizedU32s (appendLE b 2 m.type_index) m.hashes) b

/-! ## Decoder state (ContainerMap / Indices / globals of DLGE::convert) -/

/-- The i32 counters of struct Indices. -/
structure Indices where
  global : Int
  wav : Int
  random : Int
  switch : Int
  sequence : Int
deriving DecidableEq, Repr

/-- i32 value cast as u32 (wrapping). -/
def intAsU32 (i : Int) : Nat := (i.emod 4294967296).toNat

/-- i32 value cast as usize (sign extension on 64 bit, wrapping). -/
def intAsUsize (i : Int) : Nat := (i.emod 18446744073709551616).toNat

/-- i32 value masked with 0xFFF (bitwise AND on the two's complement). -/
def intAnd0xFFF (i : Int) : Nat := (i.emod 4096).toNat

/-- The pending pools of struct ContainerMap; the Random / Switch /
Sequence structs are stored as their field tuples. -/
structure ContainerMapM where
  wav : List (Nat × WavFileJ)
  random : List (Nat × (Option (List String) × List DlgeType))
  switchp : List (Nat × (String × String × List DlgeType))
  sequencep : List (Nat × List DlgeType)

/-- IndexMap::contains_key. -/
def poolContains {α : Type} (l : List (Nat × α)) (k : Nat) : Bool :=
  (l.find? (fun p => p.1 = k)).isSome

/-- IndexMap::get. -/
def poolGet {α : Type} (l : List (Nat × α)) (k : Nat) : Option α :=
  (l.find? (fun p => p.1 = k)).map (fun p => p.2)

/-- IndexMap::insert with a fresh key (the decoder only ever inserts at
fresh counter values). -/
def poolInsert {α : Type} (l : List (Nat × α)) (k : Nat) (v : α) : List (Nat × α) :=
  l ++ [(k, v)]

/-- IndexMap::swap_remove; the pools are accessed only by key so the order
change of swap_remove is unobservable. -/
def poolRemove {α : Type} (l : List (Nat × α)) (k : Nat) : List (Nat × α) :=
  l.filter (fun p => p.1 ≠ k)

/-- In-place update through get_mut. -/
def poolUpdate {α : Type} (l : List (Nat × α)) (k : Nat) (f : α → α) : List (Nat × α) :=
  l.map (fun p => if p.1 = k then (p.1, f p.2) else p)

/-- The globals map of DLGE::convert (global index to per-type local index). -/
def globalsGet (gl : List (Nat × Nat)) (k : Nat) : Option Nat :=
  (gl.find? (fun p => p.1 = k)).map (fun p => p.2)

/-- Full mutable state of the decode loop. -/
structure ConvSt where
  rd : ByteReader
  cmap : ContainerMapM
  idx : Indices
  globals : List (Nat × Nat)

/-- Indexing meta.hash_reference_data with a stream index: panics when out
of bounds (both the direct [i] indexing and .get(i).unwrap()). -/
def depIndexPanic (meta : ResourceMeta) (i : Nat) : Except RunErr ResourceDependency :=
  match meta.hash_reference_data[i]? with
  | some dep => .ok dep
  | none => .error .panicked

/-! ## DLGE::convert -/

/-- The version-dependent per-language padding read (read-and-discard a
u32 on H2016 only). -/
def readLangPad (d : DLGE) (r : ByteReader) : Except RunErr ByteReader :=
  if d.version = .h2016 then do
    let (_, r1) ← r.read32
    pure r1
  else pure r

/-- The default-locale / override handling of one language slot: resolve
the two dependency indices (sentinel pair absent) into either the default
audio/effects fields plus the derived display name, or a staged override
object. -/
def convLangRefs (d : DLGE) (meta : ResourceMeta) (wavHash : Nat) (language : String)
    (wav : WavFileJ) (wav_index ffx_index : Nat) : Except RunErr (WavFileJ × JVal) :=
  if wav_index ≠ 4294967295 ∧ ffx_index ≠ 4294967295 then
    if language = d.default_locale then do
      let dep1 ← depIndexPanic meta wav_index
      let dep2 ← depIndexPanic meta ffx_index
      let wav1 := { wav with default_wav := some dep1.hash, default_ffx := some dep2.hash }
      pure ({ wav1 with wav_name := getWavName dep1.hash dep2.hash wavHash }, JVal.jnull)
    else do
      let dep1 ← depIndexPanic meta wav_index
      let dep2 ← depIndexPanic meta ffx_index
      pure (wav, JVal.jobj [("wav", .jstr dep1.hash), ("ffx", .jstr dep2.hash)])
  else pure (wav, JVal.jnull)

/-- The subtitle payload of one language slot: peek the 32-bit length,
decrypt a nonzero payload and merge it into the staged value, else skip
four bytes. -/
def convLangSubtitle (subtitle : JVal) (r : ByteReader) : Except RunErr (JVal × ByteReader) := do
  let pk ← r.peek32
  if pk ≠ 0 then do
    let (payload, r1) ← r.readVec8
    let txt ← xteaDecrypt payload
    match subtitle with
    | .jnull => pure (JVal.jstr txt, r1)
    | .jobj m => pure (JVal.jobj (objInsert m "subtitle" (.jstr txt)), r1)
    | _ => .error .panicked
  else do
    let r1 ← r.seek (r.cursor + 4)
    pure (subtitle, r1)

/-- One language iteration of the WavFile (tag 0x01) arm of DLGE::convert:
version padding, the two resource indices, default-locale handling,
optional encrypted subtitle payload. -/
def convOneLang (d : DLGE) (meta : ResourceMeta) (wavHash : Nat) (language : String)
    (r : ByteReader) (wav : WavFileJ) : Except RunErr (WavFileJ × ByteReader) := do
  let r ← readLangPad d r
  let (wav_index, r) ← r.read32
  let (ffx_index, r) ← r.read32
  let (wav, subtitle) ← convLangRefs d meta wavHash language wav wav_index ffx_index
  let (subtitle, r) ← convLangSubtitle subtitle r
  let wav :=
    match subtitle with
    | .jnull => wav
    | s => { wav with languages := objInsert wav.languages language s }
  pure (wav, r)

/-- The per-language loop of the WavFile arm, iterating convOneLang over
the language map. -/
def convWavLangs (d : DLGE) (meta : ResourceMeta) (wavHash : Nat) :
    List String → ByteReader → WavFileJ → Except RunErr (WavFileJ × ByteReader)
  | [], r, wav => .ok (wav, r)
  | language :: rest, r, wav => do
    let (wav, r) ← convOneLang d meta wavHash language r wav
    convWavLangs d meta wavHash rest r wav

/-- Exact rational division, modelling the f64 division of the source
(written through Rat.divInt so that it evaluates by kernel reduction; it
is the same rational value as a / b). -/
def ratDiv (a b : Rat) : Rat := Rat.divInt (a.num * b.den) (b.num * a.den)

/-- Exact rational scaling by a natural constant, modelling the f64
multiplication of the source. -/
def ratMulNat (q : Rat) (n : Nat) : Rat := Rat.divInt (q.num * n) q.den

/-- The metadata fold of the Random (tag 0x02) arm: each entry must
reference a pending WavFile, which receives the weight and moves into the
Random. -/
def convRandomMeta (d : DLGE) :
    List MetadataRec → List (Nat × WavFileJ) → List DlgeType →
    Except RunErr (List (Nat × WavFileJ) × List DlgeType)
  | [], pool, acc => .ok (pool, acc)
  | m :: rest, pool, acc =>
    let t := m.type_index / 4096
    let index := m.type_index % 4096
    if t ≠ 1 then .error (.lang (.invalidReference (t % 256)))
    else if (poolGet pool index).isNone then .error (.lang (.invalidReference (index % 256)))
    else do
      let h0 ← match m.hashes[0]? with
        | some h => pure h
        | none => .error .panicked
      let weightVal : JVal :=
        if d.hex_precision then .jstr (natToHex 6 h0)
        else .jnum (ratDiv (h0 : Rat) (16777215 : Rat))
      let pool1 := poolUpdate pool index (fun w => { w with weight := some weightVal })
      let w ← match poolGet pool1 index with
        | some w => pure w
        | none => .error .panicked
      convRandomMeta d rest (poolRemove pool1 index) (acc ++ [DlgeType.wavFile w])

/-- The metadata fold of the Switch (tag 0x03) arm: entries reference
pending WavFiles or Randoms, which receive their case labels and move into
the Switch. -/
def convSwitchMeta (d : DLGE) :
    List MetadataRec → List (Nat × WavFileJ) →
    List (Nat × (Option (List String) × List DlgeType)) → List DlgeType →
    Except RunErr (List (Nat × WavFileJ) × List (Nat × (Option (List String) × List DlgeType)) × List DlgeType)
  | [], wp, rp, acc => .ok (wp, rp, acc)
  | m :: rest, wp, rp, acc =>
    let t := m.type_index / 4096
    let index := m.type_index % 4096
    if t ≠ 1 ∧ t ≠ 2 then .error (.lang (.invalidReference (t % 256)))
    else
      let cases := m.hashes.map (fun h => (getByLeft d.hashlist.switches h).getD (natToHex 8 h))
      if t = 1 then
        if (poolGet wp index).isNone then .error (.lang (.invalidReference (index % 256)))
        else do
          let wp1 := poolUpdate wp index (fun w => { w with cases := some cases })
          let w ← match poolGet wp1 index with
            | some w => pure w
            | none => .error .panicked
          convSwitchMeta d rest (poolRemove wp1 index) rp (acc ++ [DlgeType.wavFile w])
      else if t = 2 then
        if (poolGet rp index).isNone then .error (.lang (.invalidReference (index % 256)))
        else do
          let rp1 := poolUpdate rp index (fun p => (some cases, p.2))
          let rv ← match poolGet rp1 index with
            | some rv => pure rv
            | none => .error .panicked
          convSwitchMeta d rest wp (poolRemove rp1 index) (acc ++ [DlgeType.random rv.1 rv.2])
      else convSwitchMeta d rest wp rp acc

/-- The metadata fold of the Sequence (tag 0x04) arm: Random/Switch entries
carry global indices translated through the globals map (a missing key in
that map panics, as IndexMap bracket indexing does). -/
def convSeqMeta :
    List MetadataRec → ContainerMapM → List (Nat × Nat) → List DlgeType →
    Except RunErr (ContainerMapM × List DlgeType)
  | [], cm, _, acc => .ok (cm, acc)
  | m :: rest, cm, gl, acc =>
    let t := m.type_index / 4096
    if t = 4 then .error (.lang (.invalidReference (t % 256)))
    else do
      let index ←
        if t = 2 ∨ t = 3 then
          match globalsGet gl (m.type_index % 4096) with
          | some v => pure v
          | none => .error .panicked
        else pure (m.type_index % 4096)
      if t = 1 then
        if (poolGet cm.wav index).isNone then .error (.lang (.invalidReference (index % 256)))
        else do
          let w ← match poolGet cm.wav index with
            | some w => pure w
            | none => .error .panicked
          convSeqMeta rest { cm with wav := poolRemove cm.wav index } gl (acc ++ [DlgeType.wavFile w])
      else if t = 2 then
        if (poolGet cm.random index).isNone then .error (.lang (.invalidReference (index % 256)))
        else do
          let rv ← match poolGet cm.random index with
            | some rv => pure rv
            | none => .error .panicked
          convSeqMeta rest { cm with random := poolRemove cm.random index } gl
            (acc ++ [DlgeType.random rv.1 rv.2])
      else if t = 3 then
        if (poolGet cm.switchp index).isNone then .error (.lang (.invalidReference (index % 256)))
        else do
          let sv ← match poolGet cm.switchp index with
            | some sv => pure sv
            | none => .error .panicked
          convSeqMeta rest { cm with switchp := poolRemove cm.switchp index } gl
            (acc ++ [DlgeType.switch sv.1 sv.2.1 sv.2.2])
      else convSeqMeta rest cm gl acc

/-- The version-dependent reserved field of a WavFile record
(read-and-discard a u32 on every version except H2016). -/
def readHeaderPad (d : DLGE) (r : ByteReader) : Except RunErr ByteReader :=
  if d.version ≠ .h2016 then do
    let (_, r1) ← r.read32
    pure r1
  else pure r

/-- One iteration of the decode loop of DLGE::convert: peek a type byte and
run the matching arm. -/
def convertStep (d : DLGE) (meta : ResourceMeta) (st : ConvSt) : Except RunErr ConvSt := do
  let p ← st.rd.peek8
  if p = 1 then do
    let r ← st.rd.seek (st.rd.cursor + 1)
    let (tag_hash, r) ← r.read32
    let (wav_hash, r) ← r.read32
    let r ← readHeaderPad d r
    let wav : WavFileJ :=
      { wav_name := natToHex 8 wav_hash, cases := none, weight := none,
        soundtag := (getByLeft d.hashlist.tags tag_hash).getD (natToHex 8 tag_hash),
        default_wav := none, default_ffx := none, languages := [] }
    let (wav, r) ← convWavLangs d meta wav_hash d.lang_map r wav
    pure { st with
            rd := r,
            cmap := { st.cmap with wav := poolInsert st.cmap.wav (intAsUsize st.idx.wav) wav },
            idx := { st.idx with wav := st.idx.wav + 1 } }
  else if p = 2 then do
    let (container, r) ← ContainerRec.read st.rd
    let (pool, kids) ← convRandomMeta d container.metadata st.cmap.wav []
    let g := st.idx.global + 1
    pure { st with
            rd := r,
            cmap := { st.cmap with
                        wav := pool,
                        random := poolInsert st.cmap.random (intAsUsize st.idx.random) (none, kids) },
            idx := { st.idx with global := g, random := st.idx.random + 1 },
            globals := st.globals ++ [(intAsU32 g, intAsUsize st.idx.random)] }
  else if p = 3 then do
    let (container, r) ← ContainerRec.read st.rd
    let key := (getByLeft d.hashlist.switches container.group_hash).getD (natToHex 8 container.group_hash)
    let dflt := (getByLeft d.hashlist.switches container.default_hash).getD (natToHex 8 container.default_hash)
    let (wp, rp, kids) ← convSwitchMeta d container.metadata st.cmap.wav st.cmap.random []
    let g := st.idx.global + 1
    pure { st with
            rd := r,
            cmap := { st.cmap with
                        wav := wp, random := rp,
                        switchp := poolInsert st.cmap.switchp (intAsUsize st.idx.switch) (key, dflt, kids) },
            idx := { st.idx with global := g, switch := st.idx.switch + 1 },
            globals := st.globals ++ [(intAsU32 g, intAsUsize st.idx.switch)] }
  else if p = 4 then do
    let (container, r) ← ContainerRec.read st.rd
    let (cm, kids) ← convSeqMeta container.metadata st.cmap st.globals []
    let g := st.idx.global + 1
    pure { st with
            rd := r,
            cmap := { cm with sequencep := poolInsert cm.sequencep (intAsUsize st.idx.sequence) kids },
            idx := { st.idx with global := g, sequence := st.idx.sequence + 1 },
            globals := st.globals ++ [(intAsU32 g, intAsUsize st.idx.sequence)] }
  else .error (.lang (.invalidContainer p))

/-- The decode loop: run container arms while more than (or fewer than)
2 bytes remain; exits normally exactly when 2 bytes remain. -/
def convertLoop : Nat → DLGE → ResourceMeta → ConvSt → Except RunErr ConvSt
  | 0, _, _, _ => .error .fuel
  | fuel + 1, d, meta, st =>
    if st.rd.remaining = 2 then .ok st
    else do
      let st1 ← convertStep d meta st
      convertLoop fuel d meta st1

/-- Root resolution of DLGE::convert: split the trailing root tag into
type and index; a WavFile root is looked up by local index directly, the
other types translate the index through the globals map first (unwrap on a
missing global or pool entry panics). -/
def resolveRoot (st : ConvSt) (root : Nat) : Except RunErr DlgeType :=
  let root_type := root / 4096
  let root_index := root % 4096
  let gi := globalsGet st.globals root_index
  if root_type = 1 then
    match poolGet st.cmap.wav root_index with
    | some w => pure (.wavFile w)
    | none => .error .panicked
  else if root_type = 2 then
    match gi with
    | some g =>
      match poolGet st.cmap.random g with
      | some rv => pure (.random rv.1 rv.2)
      | none => .error .panicked
    | none => .error .panicked
  else if root_type = 3 then
    match gi with
    | some g =>
      match poolGet st.cmap.switchp g with
      | some sv => pure (.switch sv.1 sv.2.1 sv.2.2)
      | none => .error .panicked
    | none => .error .panicked
  else if root_type = 4 then
    match gi with
    | some g =>
      match poolGet st.cmap.sequencep g with
      | some q => pure (.sequence q)
      | none => .error .panicked
    | none => .error .panicked
  else .error (.lang (.invalidContainer (root_type % 256)))

/-- DLGE::convert. The meta JSON string argument is passed already parsed
(the serde parse is external); the loop fuel is the buffer length plus two,
which the real loop (consuming at least one byte per iteration) never
exceeds. -/
def dlgeConvert (d : DLGE) (data : List Nat) (meta : ResourceMeta) : Except RunErr DlgeJson := do
  let rd : ByteReader := ⟨data, 0⟩
  let hash := meta.hash_path.getD meta.hash_value
  let langmap := if d.custom_langmap then some (String.intercalate "," d.lang_map) else none
  let (i1, rd) ← rd.read32
  let dep1 ← depIndexPanic meta i1
  let (i2, rd) ← rd.read32
  let dep2 ← depIndexPanic meta i2
  let st0 : ConvSt := ⟨rd, ⟨[], [], [], []⟩, ⟨-1, 0, 0, 0, 0⟩, []⟩
  let st ← convertLoop (data.length + 2) d meta st0
  if st.rd.size - st.rd.cursor ≠ 2 then .error (.lang .didNotReachEOF)
  else do
    let (root, _) ← st.rd.read16
    let rootC ← resolveRoot st root
    pure ⟨"https://tonytools.win/schemas/dlge.schema.json", hash, dep1.hash, dep2.hash, langmap, rootC⟩

/-! ## DLGE::rebuild / DLGE::process_container

The encoder mutates the DLGE instance (depends, and lang_map in rebuild),
so its result type PR carries the state out of both the success and the
error path, mirroring Rust mutable-reference semantics. -/

/-- Encoder state: the instance (&mut self), the output buffer and the
index counters. -/
structure EmitSt where
  d : DLGE
  buf : List Nat
  idx : Indices

/-- Result of an emission step: success with the metadata entries the step
contributed to its parent container record, or an error; the state is
carried out either way. -/
inductive PR where
  | ok (s : EmitSt) (meta : List MetadataRec)
  | err (e : RunErr) (s : EmitSt)

/-- DLGE::add_depend: position of an existing path, else append and return
the fresh last position. -/
def addDepend (st : EmitSt) (path flag : String) : Nat × EmitSt :=
  match st.d.depends.findIdx? (fun p => p.1 = path) with
  | some i => (i, st)
  | none =>
    (st.d.depends.length,
      { st with d := { st.d with depends := st.d.depends ++ [(path, flag)] } })

/-- IndexMap::insert on the depends map: replace the value of an existing
key in place, else append. -/
def dependsInsert (l : List (String × String)) (k v : String) : List (String × String) :=
  if (l.find? (fun p => p.1 = k)).isSome then l.map (fun p => if p.1 = k then (k, v) else p)
  else l ++ [(k, v)]

/-- Rounding of an f64 to u32 as (x).round() as u32: round half away from
zero, saturating at the u32 bounds (the model of f64 arithmetic is exact
rational arithmetic; every negative value rounds to at most 0 and so
saturates to 0). -/
def roundAsU32 (q : Rat) : Nat :=
  if q.num < 0 then 0
  else min ((2 * q.num.toNat + q.den) / (2 * q.den)) 4294967295

/-- Result of one language iteration of the WavFile emission: success or a
panic, the state carried out either way. -/
inductive LangStep where
  | ok (s : EmitSt)
  | err (e : RunErr) (s : EmitSt)

/-- One language iteration of the WavFile arm of DLGE::process_container.
The fuel only feeds jsonToStr. -/
def emitOneLang (fuel : Nat) (w : WavFileJ) (index : Nat) (language : String)
    (st : EmitSt) : LangStep :=
  let st := if st.d.version = .h2016 then { st with buf := appendLE st.buf 4 0 } else st
  if language == st.d.default_locale && w.default_wav.isSome && w.default_ffx.isSome then
    match w.default_wav, w.default_ffx with
    | some dw, some dfx =>
      let p1 := addDepend st dw (natToHex 2 (128 + index))
      let st := { p1.2 with buf := appendLE p1.2.buf 4 p1.1 }
      let p2 := addDepend st dfx (natToHex 2 (128 + index))
      let st := { p2.2 with buf := appendLE p2.2.buf 4 p2.1 }
      let st :=
        match objGet w.languages language with
        | some v =>
          match v.asStr with
          | some s0 =>
            let st := if s0 = "" then { st with buf := appendLE st.buf 4 0 } else st
            { st with buf := writeSizedBytes st.buf (xteaEncrypt s0) }
          | none => { st with buf := appendLE st.buf 4 0 }
        | none => { st with buf := appendLE st.buf 4 0 }
      .ok st
    | _, _ => .err .panicked st
  else
    match objGet w.languages language with
    | none =>
      .ok { st with buf := appendLE (appendLE st.buf 8 0xFFFFFFFFFFFFFFFF) 4 0 }
    | some v =>
      match v.asObj with
      | some obj =>
        match objGet obj "wav" with
        | none => .err .panicked st
        | some wv =>
          let p1 := addDepend st (jsonToStr fuel wv) (natToHex 2 (128 + index))
          let st := { p1.2 with buf := appendLE p1.2.buf 4 p1.1 }
          match objGet obj "ffx" with
          | none => .err .panicked st
          | some fv =>
            let p2 := addDepend st (jsonToStr fuel fv) (natToHex 2 (128 + index))
            let st := { p2.2 with buf := appendLE p2.2.buf 4 p2.1 }
            if objContains obj "subtitle" then
              match objGet obj "subtitle" with
              | some sv =>
                match sv.asStr with
                | some s0 =>
                  .ok { st with buf := writeSizedBytes st.buf (xteaEncrypt s0) }
                | none => .err .panicked st
              | none => .err .panicked st
            else .ok { st with buf := appendLE st.buf 4 0 }
      | none =>
        let st := { st with buf := appendLE st.buf 8 0xFFFFFFFFFFFFFFFF }
        let st :=
          if v.isString then
            match v.asStr with
            | some s0 => { st with buf := writeSizedBytes st.buf (xteaEncrypt s0) }
            | none => st
          else { st with buf := appendLE st.buf 4 0 }
        .ok st

/-- The per-language loop of the WavFile arm of DLGE::process_container,
iterating emitOneLang over the enumerated language map. -/
def emitWavLangs (fuel : Nat) (w : WavFileJ) : List (Nat × String) → EmitSt → PR
  | [], st => .ok st []
  | (index, language) :: rest, st =>
    match emitOneLang fuel w index language st with
    | .ok st => emitWavLangs fuel w rest st
    | .err e s => .err e s

/-- Weight re-encoding in the Random arm: hex string parsed with
from_str_radix (ParseIntError surfaces via ?), else as_f64().unwrap()
scaled by 0xFFFFFF and rounded. -/
def encodeWeight (wv : JVal) : Except RunErr Nat :=
  match wv.asStr with
  | some str =>
    match fromStrRadix16 str with
    | some v => .ok v
    | none => .error (.lang .parseIntError)
  | none =>
    match wv.asF64 with
    | some q => .ok (roundAsU32 (ratMulNat q 16777215))
    | none => .error .panicked

/-- The task being processed by DLGE::process_container: a single container
(with the is_root flag), or the child loop of a Random / Switch / Sequence
arm. -/
inductive EmitTask where
  | one (c : DlgeType) (isRoot : Bool)
  | randKids (cs : List DlgeType)
  | switchKids (cs : List DlgeType)
  | seqKids (cs : List DlgeType)

/-- DLGE::process_container, fuelled (the recursion of the source is on the
document tree; every recursive call here consumes one fuel unit). -/
def procC : Nat → EmitSt → EmitTask → PR
  | 0, st, _ => .err .fuel st
  | fuel + 1, st, .one c isRoot =>
    let r : PR :=
      match c with
      | .wavFile w =>
        match getByRight st.d.hashlist.tags w.soundtag with
        | none => .err .panicked st
        | some th =>
          let nameHash := (fromStrRadix16 w.wav_name).getD (crc32Str w.wav_name)
          let buf := appendLE (appendLE (appendLE st.buf 1 1) 4 th) 4 nameHash
          let buf := if st.d.version ≠ .h2016 then appendLE buf 4 0 else buf
          match emitWavLangs fuel w st.d.lang_map.enum { st with buf := buf } with
          | .err e s => .err e s
          | .ok s _ => .ok { s with idx := { s.idx with wav := s.idx.wav + 1 } } []
      | .random _ cs =>
        match procC fuel st (.randKids cs) with
        | .err e s => .err e s
        | .ok s meta =>
          .ok { s with
                  buf := ContainerRec.write ⟨2, 0, 0, meta⟩ s.buf,
                  idx := { s.idx with global := s.idx.global + 1, random := s.idx.random + 1 } } []
      | .switch key dflt cs =>
        if st.idx.switch ≠ -1 then .err (.lang (.invalidContainer 3)) st
        else
          let kh := (getByRight st.d.hashlist.switches key).getD
            ((fromStrRadix16 key).getD (crc32Str key))
          let dh := (getByRight st.d.hashlist.switches dflt).getD
            ((fromStrRadix16 dflt).getD (crc32Str dflt))
          match procC fuel st (.switchKids cs) with
          | .err e s => .err e s
          | .ok s meta =>
            .ok { s with
                    buf := ContainerRec.write ⟨3, kh, dh, meta⟩ s.buf,
                    idx := { s.idx with global := s.idx.global + 1, switch := s.idx.switch + 1 } } []
      | .sequence cs =>
        if st.idx.sequence ≠ -1 then .err (.lang (.invalidContainer 4)) st
        else
          match procC fuel st (.seqKids cs) with
          | .err e s => .err e s
          | .ok s meta =>
            .ok { s with
                    buf := ContainerRec.write ⟨4, 0, 0, meta⟩ s.buf,
                    idx := { s.idx with global := s.idx.global + 1, sequence := s.idx.sequence + 1 } } []
      | .null => .ok st []
    match r with
    | .err e s => .err e s
    | .ok s _ =>
      if isRoot then
        let index : Int :=
          match c with
          | .wavFile _ => s.idx.wav
          | .null => 0x15
          | _ => s.idx.global
        .ok { s with buf := appendLE s.buf 2 ((c.tag * 4096 + intAnd0xFFF index) % 65536) } []
      else .ok s []
  | _ + 1, st, .randKids [] => .ok st []
  | fuel + 1, st, .randKids (child :: rest) =>
    match child with
    | .wavFile wav =>
      if wav.weight.isNone then .err (.lang (.invalidReference 1)) st
      else
        match procC fuel st (.one (.wavFile wav) false) with
        | .err e s => .err e s
        | .ok s _ =>
          match wav.weight with
          | none => .err .panicked s
          | some wv =>
            match encodeWeight wv with
            | .error e => .err e s
            | .ok weight =>
              let entry : MetadataRec := ⟨(4096 + intAnd0xFFF s.idx.wav) % 65536, [weight]⟩
              match procC fuel s (.randKids rest) with
              | .err e s2 => .err e s2
              | .ok s2 meta => .ok s2 (entry :: meta)
    | _ => .err (.lang (.invalidReference 0x15)) st
  | _ + 1, st, .switchKids [] => .ok st []
  | fuel + 1, st, .switchKids (child :: rest) =>
    let sourceCases : Except RunErr (List String) :=
      match child with
      | .wavFile wv =>
        match wv.cases with
        | some cs => .ok cs
        | none => .error (.lang (.invalidReference 0x15))
      | .random cs0 _ =>
        match cs0 with
        | some cs => .ok cs
        | none => .error (.lang (.invalidReference 0x15))
      | _ => .error (.lang (.invalidReference 0x15))
    match sourceCases with
    | .error e => .err e st
    | .ok cases =>
      match procC fuel st (.one child false) with
      | .err e s => .err e s
      | .ok s _ =>
        let caseHashes := cases.map (fun cse =>
          (getByRight s.d.hashlist.switches cse).getD ((fromStrRadix16 cse).getD (crc32Str cse)))
        let index : Option Int :=
          match child with
          | .wavFile _ => some s.idx.wav
          | .random _ _ => some s.idx.random
          | _ => none
        match index with
        | none => .err (.lang (.invalidReference 0x15)) s
        | some i =>
          let entry : MetadataRec := ⟨(child.tag * 4096 + intAnd0xFFF i) % 65536, caseHashes⟩
          let s := { s with idx := { s.idx with switch := s.idx.switch + 1 } }
          match procC fuel s (.switchKids rest) with
          | .err e s2 => .err e s2
          | .ok s2 meta => .ok s2 (entry :: meta)
  | _ + 1, st, .seqKids [] => .ok st []
  | fuel + 1, st, .seqKids (child :: rest) =>
    match procC fuel st (.one child false) with
    | .err e s => .err e s
    | .ok s _ =>
      let index : Except RunErr Int :=
        match child with
        | .wavFile _ => .ok s.idx.wav
        | .random _ _ => .ok s.idx.global
        | .switch _ _ _ => .ok s.idx.global
        | _ => .error (.lang (.invalidReference 0x15))
      match index with
      | .error e => .err e s
      | .ok i =>
        let entry : MetadataRec := ⟨(child.tag * 4096 + intAnd0xFFF i) % 65536, []⟩
        let s := { s with idx := { s.idx with sequence := s.idx.sequence + 1 } }
        match procC fuel s (.seqKids rest) with
        | .err e s2 => .err e s2
        | .ok s2 meta => .ok s2 (entry :: meta)

/-- The rebuilt output: the binary file plus the dependency table the
Resolver accumulated (the serde serialization of ResourceMeta::new around
that table is external to this model). -/
structure Rebuilt where
  file : List Nat
  meta : List (String × String)

/-- Rust str::split(',') collected to strings (empty pieces preserved),
written structurally so that it evaluates by kernel reduction. -/
def splitCommaChars : List Char → List Char → List String
  | [], acc => [String.mk acc.reverse]
  | c :: cs, acc =>
    if c = ',' then String.mk acc.reverse :: splitCommaChars cs []
    else splitCommaChars cs (c :: acc)

/-- The langmap override split of DLGE::rebuild. -/
def splitComma (s : String) : List String := splitCommaChars s.data []

/-- DLGE::rebuild. The serde parse of the document string is external and
the document arrives structured; the final DLGE state (&mut self after the
call) is returned alongside the result. -/
def dlgeRebuild (fuel : Nat) (d0 : DLGE) (doc : DlgeJson) : Except RunErr Rebuilt × DLGE :=
  let d1 := { d0 with depends := ([] : List (String × String)) }
  let old : Option (List String) := if doc.langmap.isSome then some d1.lang_map else none
  let d2 :=
    match doc.langmap with
    | some s => { d1 with lang_map := splitComma s }
    | none => d1
  let buf0 := appendLE (appendLE [] 4 0) 4 1
  let deps0 := dependsInsert (dependsInsert d2.depends doc.ditl "1F") doc.clng "1F"
  let st0 : EmitSt := ⟨{ d2 with depends := deps0 }, buf0, ⟨-1, -1, -1, -1, -1⟩⟩
  match procC fuel st0 (.one doc.root true) with
  | .ok s _ =>
    let dOut :=
      match old with
      | some m => { s.d with lang_map := m }
      | none => s.d
    (.ok ⟨s.buf, dOut.depends⟩, dOut)
  | .err e s => (.error e, s.d)

/-! ## Result classifiers used by the universal theorems -/

/-- True exactly when a decode result is the DidNotReachEOF error. -/
def isDNREOF (r : Except RunErr DlgeJson) : Bool :=
  match r with
  | .error (.lang .didNotReachEOF) => true
  | _ => false

/-- Checker used for the dead-branch argument: false exactly on the
DidNotReachEOF error. -/
def notDNREOF {α : Type} : Except RunErr α → Bool
  | .error (.lang .didNotReachEOF) => false
  | _ => true

/-- True exactly when an emission result is a success. -/
def prOk (r : PR) : Bool :=
  match r with
  | .ok _ _ => true
  | .err _ _ => false

/-- True exactly when a rebuild result is a success. -/
def rebuildOk (r : Except RunErr Rebuilt × DLGE) : Bool :=
  match r.1 with
  | .ok _ => true
  | .error _ => false

/-! ## Node counting for the singleton invariants -/

mutual
/-- Number of Switch nodes in a document tree. -/
def countSwitch : DlgeType → Nat
  | .wavFile _ => 0
  | .random _ cs => countSwitchL cs
  | .switch _ _ cs => 1 + countSwitchL cs
  | .sequence cs => countSwitchL cs
  | .null => 0

/-- Number of Switch nodes below a child list. -/
def countSwitchL : List DlgeType → Nat
  | [] => 0
  | c :: cs => countSwitch c + countSwitchL cs
end

mutual
/-- Number of Sequence nodes in a document tree. -/
def countSeq : DlgeType → Nat
  | .wavFile _ => 0
  | .random _ cs => countSeqL cs
  | .switch _ _ cs => countSeqL cs
  | .sequence cs => 1 + countSeqL cs
  | .null => 0

/-- Number of Sequence nodes below a child list. -/
def countSeqL : List DlgeType → Nat
  | [] => 0
  | c :: cs => countSeq c + countSeqL cs
end

/-- The carried state of a language-iteration result. -/
def stepSt : LangStep → EmitSt
  | .ok s => s
  | .err _ s => s

/-- Switch-counter postcondition of a successful procC run: the counter
only moves inside the Switch arm, whose entry check forces the counter to
be exactly -1, so a successful run carries at most one Switch and the
counter movement determines how many. -/
def SwPost (st : EmitSt) (t : EmitTask) (s : EmitSt) : Prop :=
  match t with
  | .one c _ =>
    (countSwitch c = 0 ∧ s.idx.switch = st.idx.switch) ∨
      (countSwitch c = 1 ∧ st.idx.switch = -1 ∧ 0 ≤ s.idx.switch ∧
        (c.tag = 3 ∨ c.tag = 4))
  | .randKids cs => countSwitchL cs = 0 ∧ s.idx.switch = st.idx.switch
  | .switchKids cs => countSwitchL cs = 0 ∧ s.idx.switch = st.idx.switch + cs.length
  | .seqKids cs =>
    (countSwitchL cs = 0 ∧ s.idx.switch = st.idx.switch) ∨
      (countSwitchL cs = 1 ∧ st.idx.switch = -1 ∧ 0 ≤ s.idx.switch)

/-- Sequence-counter postcondition of a successful procC run, symmetric to
SwPost. -/
def SeqPost (st : EmitSt) (t : EmitTask) (s : EmitSt) : Prop :=
  match t with
  | .one c _ =>
    (countSeq c = 0 ∧ s.idx.sequence = st.idx.sequence) ∨
      (countSeq c = 1 ∧ st.idx.sequence = -1 ∧ 0 ≤ s.idx.sequence ∧ c.tag = 4)
  | .randKids cs => countSeqL cs = 0 ∧ s.idx.sequence = st.idx.sequence
  | .switchKids cs => countSeqL cs = 0 ∧ s.idx.sequence = st.idx.sequence
  | .seqKids cs => countSeqL cs = 0 ∧ s.idx.sequence = st.idx.sequence + cs.length

/-! ## Concrete inputs used by the claim theorems -/

/-- Four little-endian bytes. -/
def le4 (n : Nat) : List Nat := leBytes 4 n

/-- Two little-endian bytes. -/
def le2 (n : Nat) : List Nat := leBytes 2 n

/-- A symbol table holding one soundtag (hash 0x11 named TAG). -/
def hlTags : HashList := ⟨[(0x11, "TAG")], [], []⟩

/-- An empty symbol table. -/
def hlEmpty : HashList := ⟨[], [], []⟩

/-- Dependency metadata with the two fixed leading resources. -/
def metaDC : ResourceMeta := ⟨"00AABBCCDDEE0011", none, [⟨"D", "1F"⟩, ⟨"C", "1F"⟩]⟩

/-- Dependency metadata with an empty dependency list. -/
def metaEmpty : ResourceMeta := ⟨"00AABBCCDDEE0011", none, []⟩

/-- A DLGE instance with the default H3 language map (no custom map). -/
def dlgeDefault : DLGE :=
  ⟨hlEmpty, .h3, ["xx", "en", "fr", "it", "de", "es", "ru", "cn", "tc", "jp"], "en",
    false, false, []⟩

/-- A DLGE instance with the custom language map [en]. -/
def dlgeEn : DLGE := ⟨hlTags, .h3, ["en"], "en", false, true, []⟩

/-- A DLGE instance with the custom language map [en, fr]. -/
def dlgeEnFr : DLGE := ⟨hlTags, .h3, ["en", "fr"], "en", false, true, []⟩

/-- C5 input: a stream holding one Random, one Switch and a Sequence whose
two metadata entries reference them through global indices 0 and 1, with
the root tag referencing the Sequence through global index 2. -/
def bytesC5 : List Nat :=
  le4 0 ++ le4 1
  ++ [2] ++ le4 0 ++ le4 0 ++ le4 0
  ++ [3] ++ le4 0 ++ le4 0 ++ le4 0
  ++ [4] ++ le4 0 ++ le4 0 ++ le4 2 ++ le2 0x2000 ++ le4 0 ++ le2 0x3001 ++ le4 0
  ++ le2 0x4002

/-- C5 document: Sequence containing one (empty) Random then one (empty)
Switch. -/
def docC5 : DlgeJson :=
  ⟨"https://tonytools.win/schemas/dlge.schema.json", "00AABBCCDDEE0011", "D", "C", none,
    .sequence [.random none [], .switch "00000000" "00000000" []]⟩

/-- Baseline WavFile node whose soundtag is in the symbol table and whose
name parses as hex. -/
def wavBase : WavFileJ := ⟨"0000ABCD", none, none, "TAG", none, none, []⟩

/-- C1 input: one WavFile; the default locale (en) slot is absent and the
fr slot references dependencies 0 and 1, the DITL and CLNG entries. -/
def bytesC1 : List Nat :=
  le4 0 ++ le4 1
  ++ [1] ++ le4 0x11 ++ le4 0xABCD1234 ++ le4 0
  ++ le4 0xFFFFFFFF ++ le4 0xFFFFFFFF ++ le4 0
  ++ le4 0 ++ le4 1 ++ le4 0
  ++ le2 0x1000

/-- The document decoded from bytesC1. -/
def docC1 : DlgeJson :=
  ⟨"https://tonytools.win/schemas/dlge.schema.json", "00AABBCCDDEE0011", "D", "C",
    some "en,fr",
    .wavFile ⟨"ABCD1234", none, none, "TAG", none, none,
      [("fr", .jobj [("wav", .jstr "D"), ("ffx", .jstr "C")])]⟩⟩

/-- What rebuilding docC1 actually produces: the fr override path is
re-registered as the JSON-quoted string and receives the fresh dependency
indices 2 and 3 where the original stream had 0 and 1. -/
def rebuiltC1 : Rebuilt :=
  ⟨le4 0 ++ le4 1
    ++ [1] ++ le4 0x11 ++ le4 0xABCD1234 ++ le4 0
    ++ le4 0xFFFFFFFF ++ le4 0xFFFFFFFF ++ le4 0
    ++ le4 2 ++ le4 3 ++ le4 0
    ++ le2 0x1000,
    [("D", "1F"), ("C", "1F"), ("\"D\"", "81"), ("\"C\"", "81")]⟩

/-- C2 input (a): a Random container whose metadata references WavFile
local index 0 while the WavFile pool is empty. -/
def bytesC2a : List Nat :=
  le4 0 ++ le4 1 ++ [2] ++ le4 0 ++ le4 0 ++ le4 1 ++ le2 0x1000 ++ le4 1 ++ le4 0x10

/-- C2 input (b): a Sequence container whose metadata entry of type Random
carries global index 0 while the globals map is empty. -/
def bytesC2b : List Nat :=
  le4 0 ++ le4 1 ++ [4] ++ le4 0 ++ le4 0 ++ le4 1 ++ le2 0x2000 ++ le4 0

/-- C2 input (c): no containers, root tag of type Random with global
index 0 while the globals map is empty. -/
def bytesC2c : List Nat := le4 0 ++ le4 1 ++ le2 0x2000

/-- C2 input (d): a Sequence container whose metadata entry of type Switch
carries global index 0 while the globals map is empty. -/
def bytesC2d : List Nat :=
  le4 0 ++ le4 1 ++ [4] ++ le4 0 ++ le4 0 ++ le4 1 ++ le2 0x3000 ++ le4 0

/-- A document with the given root and no language-map override. -/
def mkDoc (root : DlgeType) : DlgeJson := ⟨"s", "00AABBCCDDEE0011", "D", "C", none, root⟩

/-- C3: a Sequence holding two Switch nodes. -/
def docTwoSwitch : DlgeJson :=
  mkDoc (.sequence [.switch "00000000" "00000000" [], .switch "00000001" "00000001" []])

/-- C3: a Sequence whose first child is a second Sequence. -/
def docSeqFirst : DlgeJson := mkDoc (.sequence [.sequence []])

/-- C3: a Sequence whose second child is a second Sequence. -/
def docSeqLater : DlgeJson := mkDoc (.sequence [.random none [], .sequence []])

/-- C3: a single Sequence holding a single Switch. -/
def docSingle : DlgeJson := mkDoc (.sequence [.switch "00000000" "00000000" []])

/-- The bytes docSingle encodes to. -/
def bytesSingle : List Nat :=
  le4 0 ++ le4 1
  ++ [3] ++ le4 0 ++ le4 0 ++ le4 0
  ++ [4] ++ le4 0 ++ le4 0 ++ le4 1 ++ le2 0x3000 ++ le4 0
  ++ le2 0x4001

/-- C4: a document carrying a langmap override whose root fails to encode
(a Random child inside a Random is rejected with InvalidReference 0x15). -/
def docC4err : DlgeJson := ⟨"s", "H", "D", "C", some "aa,bb", .random none [.random none []]⟩

/-- C4: a document carrying a langmap override that encodes successfully. -/
def docC4ok : DlgeJson := ⟨"s", "H", "D", "C", some "aa,bb", .sequence []⟩

/-- The successful rebuild output for docC4ok. -/
def rebuiltC4ok : Rebuilt :=
  ⟨le4 0 ++ le4 1 ++ [4] ++ le4 0 ++ le4 0 ++ le4 0 ++ le2 0x4000,
    [("D", "1F"), ("C", "1F")]⟩

/-- The DLGE instance state after the successful rebuild of docC4ok: the
language map is restored, only the dependency table moved. -/
def dC4end : DLGE := { dlgeDefault with depends := [("D", "1F"), ("C", "1F")] }

/-- C6: document whose WavFile soundtag TAG is present in the symbol
table. -/
def docC6ok : DlgeJson := ⟨"s", "H", "D", "C", some "en", .wavFile wavBase⟩

/-- C6: document whose WavFile soundtag NOPE is absent from the symbol
table. -/
def docC6missing : DlgeJson :=
  ⟨"s", "H", "D", "C", some "en", .wavFile { wavBase with soundtag := "NOPE" }⟩

/-- C6 (counterexample variant): another absent soundtag. -/
def docC6missing2 : DlgeJson :=
  ⟨"s", "H", "D", "C", some "en", .wavFile { wavBase with soundtag := "ALSOMISSING" }⟩

/-- C6: document whose WavFile name zz does not parse as hex, forcing the
crc32 content-hash fallback for the name hash. -/
def docC6crc : DlgeJson :=
  ⟨"s", "H", "D", "C", some "en", .wavFile { wavBase with wav_name := "zz" }⟩

/-- Bytes docC6ok encodes to: tag byte 1, the table hash 0x11 of TAG, the
hex-parsed name hash, the reserved field, the absent-language sentinel pair
and marker, and the root tag. -/
def bytesC6ok : List Nat :=
  le4 0 ++ le4 1
  ++ [1] ++ le4 0x11 ++ le4 0xABCD ++ le4 0
  ++ le4 0xFFFFFFFF ++ le4 0xFFFFFFFF ++ le4 0
  ++ le2 0x1000

/-- Bytes docC6crc encodes to: the name hash is crc32("zz") = 0x24D91BA1. -/
def bytesC6crc : List Nat :=
  le4 0 ++ le4 1
  ++ [1] ++ le4 0x11 ++ le4 0x24D91BA1 ++ le4 0
  ++ le4 0xFFFFFFFF ++ le4 0xFFFFFFFF ++ le4 0
  ++ le2 0x1000

/-- C7: WavFile with default audio/effects references whose default-locale
subtitle is the empty string. -/
def docC7empty : DlgeJson :=
  ⟨"s", "H", "D", "C", some "en",
    .wavFile { wavBase with
                 default_wav := some "DW", default_ffx := some "DF",
                 languages := [("en", .jstr "")] }⟩

/-- C7: the same WavFile with no default-locale subtitle entry at all. -/
def docC7absent : DlgeJson :=
  ⟨"s", "H", "D", "C", some "en",
    .wavFile { wavBase with
                 default_wav := some "DW", default_ffx := some "DF",
                 languages := [] }⟩

/-- Bytes docC7empty encodes to: after the audio/effects indices 2 and 3
the encoder writes BOTH the 32-bit zero marker AND a zero-length sized
payload, eight zero bytes in total. -/
def bytesC7empty : List Nat :=
  le4 0 ++ le4 1
  ++ [1] ++ le4 0x11 ++ le4 0xABCD ++ le4 0
  ++ le4 2 ++ le4 3 ++ le4 0 ++ le4 0
  ++ le2 0x1000

/-- Bytes docC7absent encodes to: a single 32-bit zero marker. -/
def bytesC7absent : List Nat :=
  le4 0 ++ le4 1
  ++ [1] ++ le4 0x11 ++ le4 0xABCD ++ le4 0
  ++ le4 2 ++ le4 3 ++ le4 0
  ++ le2 0x1000

/-- The dependency table shared by the two C7 rebuilds. -/
def depsC7 : List (String × String) :=
  [("D", "1F"), ("C", "1F"), ("DW", "80"), ("DF", "80")]

/-- C9 input: one WavFile (no language entries), a Random whose single
metadata entry carries weight hash 0xFFFFFF, root tag referencing the
Random through global index 0. -/
def bytesC9one : List Nat :=
  le4 0 ++ le4 1
  ++ [1] ++ le4 0x11 ++ le4 0xABCD1234 ++ le4 0
  ++ le4 0xFFFFFFFF ++ le4 0xFFFFFFFF ++ le4 0
  ++ [2] ++ le4 0 ++ le4 0 ++ le4 1 ++ le2 0x1000 ++ le4 1 ++ le4 0xFFFFFF
  ++ le2 0x2000

/-- C9 input with weight hash 0x000000. -/
def bytesC9zero : List Nat :=
  le4 0 ++ le4 1
  ++ [1] ++ le4 0x11 ++ le4 0xABCD1234 ++ le4 0
  ++ le4 0xFFFFFFFF ++ le4 0xFFFFFFFF ++ le4 0
  ++ [2] ++ le4 0 ++ le4 0 ++ le4 1 ++ le2 0x1000 ++ le4 1 ++ le4 0
  ++ le2 0x2000

/-- The document decoded from bytesC9one: weight exactly 1. -/
def docC9one : DlgeJson :=
  ⟨"https://tonytools.win/schemas/dlge.schema.json", "00AABBCCDDEE0011", "D", "C",
    some "en",
    .random none [.wavFile ⟨"ABCD1234", none, some (.jnum 1), "TAG", none, none, []⟩]⟩

/-- The document decoded from bytesC9zero: weight exactly 0. -/
def docC9zero : DlgeJson :=
  ⟨"https://tonytools.win/schemas/dlge.schema.json", "00AABBCCDDEE0011", "D", "C",
    some "en",
    .random none [.wavFile ⟨"ABCD1234", none, some (.jnum 0), "TAG", none, none, []⟩]⟩

/-- A decoder state whose reader has exactly 2 bytes remaining, on which
the decode loop exits immediately. -/
def stRem2 : ConvSt := ⟨⟨[0, 16], 0⟩, ⟨[], [], [], []⟩, ⟨-1, 0, 0, 0, 0⟩, []⟩

/-- A malformed stream that does not end on a 2-byte root tag: one
trailing WavFile type byte with nothing after it. -/
def bytesC8bad : List Nat := le4 0 ++ le4 1 ++ [1]

/-- C10 input: the leading DITL dependency index is 5 against an empty
dependency list. -/
def bytesC10head : List Nat := le4 5

/-- C10 input: a default-locale language slot referencing dependency
indices 7 and 8 against a two-entry dependency list. -/
def bytesC10lang : List Nat :=
  le4 0 ++ le4 1 ++ [1] ++ le4 0x11 ++ le4 0xABCD1234 ++ le4 0 ++ le4 7 ++ le4 8

/-! ## State-preservation and counter invariants of the encoder -/

theorem addDepend_state (st : EmitSt) (p f : String) :
    ((addDepend st p f).2).d.lang_map = st.d.lang_map ∧ ((addDepend st p f).2).idx = st.idx := by
  unfold addDepend
  split <;> exact ⟨rfl, rfl⟩

theorem emitOneLang_state (fuel : Nat) (w : WavFileJ) (index : Nat) (language : String)
    (st : EmitSt) :
    (stepSt (emitOneLang fuel w index language st)).d.lang_map = st.d.lang_map ∧
      (stepSt (emitOneLang fuel w index language st)).idx = st.idx := by
  cases hv : objGet w.languages language with
  | none =>
    unfold emitOneLang
    simp only [hv]
    repeat' split
    all_goals simp_all [stepSt, addDepend_state]
  | some v =>
    cases v <;>
      (unfold emitOneLang; simp only [hv, JVal.asStr, JVal.asObj, JVal.isString]) <;>
      (repeat' split) <;>
      simp_all [stepSt, addDepend_state, And.left (addDepend_state _ _ _), And.right (addDepend_state _ _ _)]



theorem emitWavLangs_state (fuel : Nat) (w : WavFileJ) :
    ∀ (l : List (Nat × String)) (st s : EmitSt) (m : List MetadataRec),
      emitWavLangs fuel w l st = .ok s m →
        s.d.lang_map = st.d.lang_map ∧ s.idx = st.idx := by
  intro l
  induction l with
  | nil =>
    intro st s m h
    simp only [emitWavLangs] at h
    cases h
    exact ⟨rfl, rfl⟩
  | cons hd tl ih =>
    obtain ⟨index, language⟩ := hd
    intro st s m h
    simp only [emitWavLangs] at h
    cases hstep : emitOneLang fuel w index language st with
    | ok st1 =>
      rw [hstep] at h
      have h1 := emitOneLang_state fuel w index language st
      rw [hstep] at h1
      have h2 := ih st1 s m h
      simp only [stepSt] at h1
      exact ⟨h2.1.trans h1.1, h2.2.trans h1.2⟩
    | err e s1 =>
      rw [hstep] at h
      cases h

theorem procCInv :
    ∀ (fuel : Nat) (st : EmitSt) (t : EmitTask) (s : EmitSt) (m : List MetadataRec),
      procC fuel st t = .ok s m →
        s.d.lang_map = st.d.lang_map ∧ SwPost st t s ∧ SeqPost st t s := by
  intro fuel
  induction fuel with
  | zero => intro st t s m h; simp [procC] at h
  | succ n ih =>
    intro st t s m h
    match t with
    | .one c isRoot =>
      cases c with
      | wavFile w =>
        simp only [procC] at h
        split at h
        next e s1 heq =>
          exact PR.noConfusion h
        next s1 m1 heq =>
          -- heq : inner arm = PR.ok s1 m1
          split at heq
          · exact PR.noConfusion heq
          · -- some th case: match emitWavLangs ...
            split at heq
            next => exact PR.noConfusion heq
            next s2 m2 heq2 =>
              -- heq2 : emitWavLangs n w _ _ = .ok s2 m2
              cases heq
              have hw := emitWavLangs_state n w _ _ _ _ heq2
              -- finish
              split at h <;> (cases h; constructor)
              · exact hw.1
              · constructor
                · left
                  refine ⟨rfl, ?_⟩
                  simp [hw.2]
                · left
                  refine ⟨rfl, ?_⟩
                  simp [hw.2]
              · exact hw.1
              · constructor
                · left
                  refine ⟨rfl, ?_⟩
                  simp [hw.2]
                · left
                  refine ⟨rfl, ?_⟩
                  simp [hw.2]
      | null =>
        simp only [procC] at h
        split at h <;> cases h <;>
          exact ⟨rfl, Or.inl ⟨rfl, rfl⟩, Or.inl ⟨rfl, rfl⟩⟩
      | random cases0 cs =>
        simp only [procC] at h
        split at h
        next => exact PR.noConfusion h
        next s1 m1 heq =>
          split at heq
          next => exact PR.noConfusion heq
          next s2 m2 heq2 =>
            cases heq
            obtain ⟨ha, hb, hc⟩ := ih st (.randKids cs) s2 m2 heq2
            simp only [SwPost] at hb
            simp only [SeqPost] at hc
            split at h <;> cases h <;>
              refine ⟨ha, Or.inl ⟨?_, ?_⟩, Or.inl ⟨?_, ?_⟩⟩ <;>
              simp [countSwitch, countSeq, hb.1, hb.2, hc.1, hc.2]
      | «switch» key dflt cs =>
        simp only [procC] at h
        split at h
        next => exact PR.noConfusion h
        next s1 m1 heq =>
          split at heq
          next => exact PR.noConfusion heq
          next hsw =>
            split at heq
            next => exact PR.noConfusion heq
            next s2 m2 heq2 =>
              cases heq
              obtain ⟨ha, hb, hc⟩ := ih st (.switchKids cs) s2 m2 heq2
              simp only [SwPost] at hb
              simp only [SeqPost] at hc
              have hswz : st.idx.switch = -1 := by omega
              split at h <;> cases h <;>
                refine ⟨ha, Or.inr ⟨?_, hswz, ?_, Or.inl rfl⟩, Or.inl ⟨?_, ?_⟩⟩ <;>
                simp [countSwitch, countSeq, hb.1, hb.2, hc.1, hc.2, hswz]
      | sequence cs =>
        simp only [procC] at h
        split at h
        next => exact PR.noConfusion h
        next s1 m1 heq =>
          split at heq
          next => exact PR.noConfusion heq
          next hsq =>
            split at heq
            next => exact PR.noConfusion heq
            next s2 m2 heq2 =>
              cases heq
              obtain ⟨ha, hb, hc⟩ := ih st (.seqKids cs) s2 m2 heq2
              simp only [SwPost] at hb
              simp only [SeqPost] at hc
              have hsqz : st.idx.sequence = -1 := by omega
              split at h <;> cases h <;>
                refine ⟨ha, ?_, Or.inr ⟨?_, hsqz, ?_, rfl⟩⟩
              · rcases hb with ⟨hb1, hb2⟩ | ⟨hb1, hb2, hb3⟩
                · exact Or.inl ⟨by simp [countSwitch, hb1], by simp [hb2]⟩
                · exact Or.inr ⟨by simp [countSwitch, hb1], hb2, by simp; omega, Or.inr rfl⟩
              · simp [countSeq, hc.1]
              · simp [hc.2, hsqz]
              · rcases hb with ⟨hb1, hb2⟩ | ⟨hb1, hb2, hb3⟩
                · exact Or.inl ⟨by simp [countSwitch, hb1], by simp [hb2]⟩
                · exact Or.inr ⟨by simp [countSwitch, hb1], hb2, by simp; omega, Or.inr rfl⟩
              · simp [countSeq, hc.1]
              · simp [hc.2, hsqz]
    | .randKids [] =>
      simp only [procC] at h
      cases h
      exact ⟨rfl, ⟨rfl, rfl⟩, ⟨rfl, rfl⟩⟩
    | .randKids (child :: rest) =>
      cases child <;> simp only [procC] at h <;> try exact PR.noConfusion h
      next wav =>
        split at h
        next => exact PR.noConfusion h
        next =>
          split at h
          next => exact PR.noConfusion h
          next =>
            rename_i s1 m1 heq1
            split at h
            next => exact PR.noConfusion h
            next =>
              split at h
              next => exact PR.noConfusion h
              next =>
                split at h
                next => exact PR.noConfusion h
                next =>
                  rename_i m2 heq2
                  cases h
                  obtain ⟨ha1, hb1, hc1⟩ := ih st (.one (.wavFile wav) false) s1 m1 heq1
                  obtain ⟨ha2, hb2, hc2⟩ := ih s1 (.randKids rest) s m2 heq2
                  simp only [SwPost, SeqPost, countSwitch, countSeq] at hb1 hc1 hb2 hc2 ⊢
                  rcases hb1 with ⟨hb1a, hb1b⟩ | ⟨hb1a, hb1b⟩
                  · rcases hc1 with ⟨hc1a, hc1b⟩ | ⟨hc1a, hc1b, hc1c, htag⟩
                    · refine ⟨ha2.trans ha1, ⟨?_, ?_⟩, ⟨?_, ?_⟩⟩
                      · simp [countSwitchL, countSwitch, hb1a, hb2.1]
                      · omega
                      · simp [countSeqL, countSeq, hc1a, hc2.1]
                      · omega
                    · simp [DlgeType.tag] at htag
                  · exact absurd hb1a (by simp)
    | .switchKids [] =>
      simp only [procC] at h
      cases h
      exact ⟨rfl, ⟨rfl, by simp⟩, ⟨rfl, rfl⟩⟩
    | .switchKids (child :: rest) =>
      cases child with
      | wavFile wv =>
        cases hcs : wv.cases with
        | none =>
          simp only [procC, hcs] at h
          exact PR.noConfusion h
        | some cl =>
          simp only [procC, hcs] at h
          split at h
          next => exact PR.noConfusion h
          next =>
            rename_i s1 m1 heq1
            split at h
            next => exact PR.noConfusion h
            next =>
              rename_i m2 heq2
              cases h
              obtain ⟨ha1, hb1, hc1⟩ := ih st (.one (.wavFile wv) false) s1 m1 heq1
              obtain ⟨ha2, hb2, hc2⟩ := ih _ (.switchKids rest) s m2 heq2
              simp only [SwPost, SeqPost, countSwitch, countSeq] at hb1 hc1 hb2 hc2 ⊢
              simp only [List.length_cons]
              rcases hb1 with ⟨hb1a, hb1b⟩ | ⟨hb1a, hb1b⟩
              · rcases hc1 with ⟨hc1a, hc1b⟩ | ⟨hc1a, hc1b, hc1c, htag⟩
                · try simp at hb2 hc2
                  refine ⟨ha2.trans ha1, ⟨?_, ?_⟩, ⟨?_, ?_⟩⟩
                  · simp [countSwitchL, countSwitch, hb1a, hb2.1]
                  · omega
                  · simp [countSeqL, countSeq, hc1a, hc2.1]
                  · omega
                · simp [DlgeType.tag] at htag
              · exact absurd hb1a (by simp)
      | random cs0 kidsR =>
        cases hcs : cs0 with
        | none =>
          simp only [procC, hcs] at h
          exact PR.noConfusion h
        | some cl =>
          simp only [procC, hcs] at h
          split at h
          next => exact PR.noConfusion h
          next =>
            rename_i s1 m1 heq1
            split at h
            next => exact PR.noConfusion h
            next =>
              rename_i m2 heq2
              cases h
              obtain ⟨ha1, hb1, hc1⟩ := ih st (.one (.random (some cl) kidsR) false) s1 m1 heq1
              obtain ⟨ha2, hb2, hc2⟩ := ih _ (.switchKids rest) s m2 heq2
              simp only [SwPost, SeqPost, countSwitch, countSeq] at hb1 hc1 hb2 hc2 ⊢
              simp only [List.length_cons]
              rcases hb1 with ⟨hb1a, hb1b⟩ | ⟨hb1a, hb1b, hb1c, htag⟩
              · rcases hc1 with ⟨hc1a, hc1b⟩ | ⟨hc1a, hc1b, hc1c, htag⟩
                · try simp at hb2 hc2
                  refine ⟨ha2.trans ha1, ⟨?_, ?_⟩, ⟨?_, ?_⟩⟩
                  · simp [countSwitchL, countSwitch, hb1a, hb2.1]
                  · omega
                  · simp [countSeqL, countSeq, hc1a, hc2.1]
                  · omega
                · simp [DlgeType.tag] at htag
              · simp [DlgeType.tag] at htag
      | «switch» k dfl kidsS =>
        simp only [procC] at h
        exact PR.noConfusion h
      | sequence kidsS =>
        simp only [procC] at h
        exact PR.noConfusion h
      | null =>
        simp only [procC] at h
        exact PR.noConfusion h
    | .seqKids [] =>
      simp only [procC] at h
      cases h
      exact ⟨rfl, Or.inl ⟨rfl, rfl⟩, ⟨rfl, by simp⟩⟩
    | .seqKids (child :: rest) =>
      simp only [procC] at h
      split at h
      next => exact PR.noConfusion h
      next =>
        rename_i s1 m1 heq1
        obtain ⟨ha1, hb1, hc1⟩ := ih st (.one child false) s1 m1 heq1
        cases child with
        | sequence kidsS => simp only at h; exact PR.noConfusion h
        | null => simp only at h; exact PR.noConfusion h
        | wavFile wv =>
          simp only at h
          split at h
          next => exact PR.noConfusion h
          next =>
            rename_i m2 heq2
            cases h
            obtain ⟨ha2, hb2, hc2⟩ := ih _ (.seqKids rest) s m2 heq2
            simp only [SwPost, SeqPost, countSwitch, countSeq] at hb1 hc1 hb2 hc2 ⊢
            simp only [List.length_cons]
            try simp at hb2 hc2
            rcases hb1 with ⟨hb1a, hb1b⟩ | ⟨hb1a, hb1b⟩
            · rcases hc1 with ⟨hc1a, hc1b⟩ | ⟨hc1a, hc1b, hc1c, htag⟩
              · refine ⟨ha2.trans ha1, ?_, ⟨?_, ?_⟩⟩
                · rcases hb2 with ⟨hb2a, hb2b⟩ | ⟨hb2a, hb2b, hb2c⟩
                  · exact Or.inl ⟨by simp [countSwitchL, countSwitch, hb1a, hb2a], by omega⟩
                  · exact Or.inr ⟨by simp [countSwitchL, countSwitch, hb1a, hb2a], by omega, by omega⟩
                · simp [countSeqL, countSeq, hc1a, hc2.1]
                · omega
              · simp [DlgeType.tag] at htag
            · exact absurd hb1a (by simp)
        | random cs0 kidsR =>
          simp only at h
          split at h
          next => exact PR.noConfusion h
          next =>
            rename_i m2 heq2
            cases h
            obtain ⟨ha2, hb2, hc2⟩ := ih _ (.seqKids rest) s m2 heq2
            simp only [SwPost, SeqPost, countSwitch, countSeq] at hb1 hc1 hb2 hc2 ⊢
            simp only [List.length_cons]
            try simp at hb2 hc2
            rcases hb1 with ⟨hb1a, hb1b⟩ | ⟨hb1a, hb1b, hb1c, htag⟩
            · rcases hc1 with ⟨hc1a, hc1b⟩ | ⟨hc1a, hc1b, hc1c, htag⟩
              · refine ⟨ha2.trans ha1, ?_, ⟨?_, ?_⟩⟩
                · rcases hb2 with ⟨hb2a, hb2b⟩ | ⟨hb2a, hb2b, hb2c⟩
                  · exact Or.inl ⟨by simp [countSwitchL, countSwitch, hb1a, hb2a], by omega⟩
                  · exact Or.inr ⟨by simp [countSwitchL, countSwitch, hb1a, hb2a], by omega, by omega⟩
                · simp [countSeqL, countSeq, hc1a, hc2.1]
                · omega
              · simp [DlgeType.tag] at htag
            · simp [DlgeType.tag] at htag
        | «switch» k dfl kidsS =>
          simp only at h
          split at h
          next => exact PR.noConfusion h
          next =>
            rename_i m2 heq2
            cases h
            obtain ⟨ha2, hb2, hc2⟩ := ih _ (.seqKids rest) s m2 heq2
            simp only [SwPost, SeqPost, countSwitch, countSeq] at hb1 hc1 hb2 hc2 ⊢
            simp only [List.length_cons]
            try simp at hb2 hc2
            rcases hc1 with ⟨hc1a, hc1b⟩ | ⟨hc1a, hc1b, hc1c, htag⟩
            · refine ⟨ha2.trans ha1, ?_, ⟨?_, ?_⟩⟩
              · rcases hb1 with ⟨hb1a, hb1b⟩ | ⟨hb1a, hb1b, hb1c, htag⟩
                · rcases hb2 with ⟨hb2a, hb2b⟩ | ⟨hb2a, hb2b, hb2c⟩
                  · exact Or.inl ⟨by simp [countSwitchL, countSwitch, hb1a, hb2a], by omega⟩
                  · exact Or.inr ⟨by simp [countSwitchL, countSwitch, hb1a, hb2a], by omega, by omega⟩
                · rcases hb2 with ⟨hb2a, hb2b⟩ | ⟨hb2a, hb2b, hb2c⟩
                  · exact Or.inr ⟨by simp [countSwitchL, countSwitch, hb1a, hb2a], hb1b, by omega⟩
                  · omega
              · simp [countSeqL, countSeq, hc1a, hc2.1]
              · omega
            · simp [DlgeType.tag] at htag

/-! ## Rebuild-level consequences of the invariants -/

theorem C4_amended_core :
    ∀ (fuel : Nat) (d : DLGE) (doc : DlgeJson) (r : Rebuilt) (d2 : DLGE),
      dlgeRebuild fuel d doc = (.ok r, d2) → d2.lang_map = d.lang_map := by
  intro fuel d doc r d2 h
  cases hdoc : doc.langmap with
  | some sm =>
    simp only [dlgeRebuild, hdoc, Option.isSome_some] at h
    split at h
    next s1 m1 hpc =>
      cases h
      rfl
    next e s1 hpc =>
      cases h
  | none =>
    simp only [dlgeRebuild, hdoc, Option.isSome_none] at h
    split at h
    next s1 m1 hpc =>
      cases h
      exact (procCInv fuel _ _ s1 m1 hpc).1
    next e s1 hpc =>
      cases h

theorem rebuild_ok_procC (fuel : Nat) (d : DLGE) (doc : DlgeJson)
    (h : rebuildOk (dlgeRebuild fuel d doc) = true) :
    ∃ st s m, procC fuel st (.one doc.root true) = PR.ok s m := by
  cases hdoc : doc.langmap with
  | some sm =>
    simp only [dlgeRebuild, rebuildOk, hdoc, Option.isSome_some] at h
    split at h
    next =>
      rename_i res hres
      split at hres
      next => rename_i s1 m1 hpc; exact ⟨_, s1, m1, hpc⟩
      next => simp at hres
    next => simp at h
  | none =>
    simp only [dlgeRebuild, rebuildOk, hdoc, Option.isSome_none] at h
    split at h
    next =>
      rename_i res hres
      split at hres
      next => rename_i s1 m1 hpc; exact ⟨_, s1, m1, hpc⟩
      next => simp at hres
    next => simp at h

/-! ## The decoder never reports DidNotReachEOF: every error source of the
decode loop and of the root resolution is classified, and the loop exits
normally only with exactly two bytes remaining -/

theorem nd_error_congr {α β : Type} (e : RunErr) :
    notDNREOF (.error e : Except RunErr β) = notDNREOF (.error e : Except RunErr α) := by
  cases e with
  | lang le => cases le <;> rfl
  | panicked => rfl
  | fuel => rfl

theorem nd_bind {α β : Type} (x : Except RunErr α) (f : α → Except RunErr β)
    (hx : notDNREOF x = true) (hf : ∀ a, x = .ok a → notDNREOF (f a) = true) :
    notDNREOF (x >>= f) = true := by
  cases x with
  | error e =>
    have hb : (Except.error e >>= f : Except RunErr β) = Except.error e := rfl
    rw [hb, nd_error_congr e]
    exact hx
  | ok a => exact hf a rfl

theorem nd_readN (r : ByteReader) (n : Nat) : notDNREOF (r.readN n) = true := by
  unfold ByteReader.readN
  split <;> rfl

theorem nd_read8 (r : ByteReader) : notDNREOF r.read8 = true := by
  unfold ByteReader.read8
  exact nd_bind _ _ (nd_readN r 1) (fun a _ => rfl)

theorem nd_read16 (r : ByteReader) : notDNREOF r.read16 = true := by
  unfold ByteReader.read16
  exact nd_bind _ _ (nd_readN r 2) (fun a _ => rfl)

theorem nd_read32 (r : ByteReader) : notDNREOF r.read32 = true := by
  unfold ByteReader.read32
  exact nd_bind _ _ (nd_readN r 4) (fun a _ => rfl)

theorem nd_peek8 (r : ByteReader) : notDNREOF r.peek8 = true := by
  unfold ByteReader.peek8
  exact nd_bind _ _ (nd_read8 r) (fun a _ => rfl)

theorem nd_peek32 (r : ByteReader) : notDNREOF r.peek32 = true := by
  unfold ByteReader.peek32
  exact nd_bind _ _ (nd_read32 r) (fun a _ => rfl)

theorem nd_seek (r : ByteReader) (p : Nat) : notDNREOF (r.seek p) = true := by
  unfold ByteReader.seek
  split <;> rfl

theorem nd_readVec8 (r : ByteReader) : notDNREOF r.readVec8 = true := by
  unfold ByteReader.readVec8
  exact nd_bind _ _ (nd_read32 r) (fun a _ => nd_readN _ _)

theorem nd_readU32s (r : ByteReader) (n : Nat) : notDNREOF (r.readU32s n) = true := by
  induction n generalizing r with
  | zero => rfl
  | succ k ih =>
    unfold ByteReader.readU32s
    refine nd_bind _ _ (nd_read32 r) (fun a _ => ?_)
    exact nd_bind _ _ (ih a.2) (fun b _ => rfl)

theorem nd_readVec32 (r : ByteReader) : notDNREOF r.readVec32 = true := by
  unfold ByteReader.readVec32
  exact nd_bind _ _ (nd_read32 r) (fun a _ => nd_readU32s _ _)

theorem nd_readMetadataList (r : ByteReader) (n : Nat) :
    notDNREOF (readMetadataList r n) = true := by
  induction n generalizing r with
  | zero => rfl
  | succ k ih =>
    unfold readMetadataList
    refine nd_bind _ _ (nd_read16 r) (fun a _ => ?_)
    refine nd_bind _ _ (nd_readVec32 a.2) (fun b _ => ?_)
    exact nd_bind _ _ (ih b.2) (fun c _ => rfl)

theorem nd_containerRead (r : ByteReader) : notDNREOF (ContainerRec.read r) = true := by
  unfold ContainerRec.read
  refine nd_bind _ _ (nd_read8 r) (fun a _ => ?_)
  refine nd_bind _ _ (nd_read32 a.2) (fun b _ => ?_)
  refine nd_bind _ _ (nd_read32 b.2) (fun c _ => ?_)
  refine nd_bind _ _ (nd_read32 c.2) (fun d _ => ?_)
  exact nd_bind _ _ (nd_readMetadataList d.2 d.1) (fun e _ => rfl)

theorem nd_xteaDecrypt (data : List Nat) : notDNREOF (xteaDecrypt data) = true := by
  unfold xteaDecrypt
  split
  · rfl
  · dsimp only
    split <;> rfl

theorem nd_depIndexPanic (meta : ResourceMeta) (i : Nat) :
    notDNREOF (depIndexPanic meta i) = true := by
  unfold depIndexPanic
  split <;> rfl



theorem nd_readLangPad (d : DLGE) (r : ByteReader) : notDNREOF (readLangPad d r) = true := by
  unfold readLangPad
  split
  · exact nd_bind _ _ (nd_read32 r) (fun a _ => rfl)
  · rfl

theorem nd_readHeaderPad (d : DLGE) (r : ByteReader) : notDNREOF (readHeaderPad d r) = true := by
  unfold readHeaderPad
  split
  · exact nd_bind _ _ (nd_read32 r) (fun a _ => rfl)
  · rfl

theorem nd_convLangRefs (d : DLGE) (meta : ResourceMeta) (wavHash : Nat) (language : String)
    (wav : WavFileJ) (wi fi : Nat) :
    notDNREOF (convLangRefs d meta wavHash language wav wi fi) = true := by
  unfold convLangRefs
  split
  · split
    · refine nd_bind _ _ (nd_depIndexPanic meta wi) (fun x _ => ?_)
      exact nd_bind _ _ (nd_depIndexPanic meta fi) (fun y _ => rfl)
    · refine nd_bind _ _ (nd_depIndexPanic meta wi) (fun x _ => ?_)
      exact nd_bind _ _ (nd_depIndexPanic meta fi) (fun y _ => rfl)
  · rfl

theorem nd_convLangSubtitle (subtitle : JVal) (r : ByteReader) :
    notDNREOF (convLangSubtitle subtitle r) = true := by
  unfold convLangSubtitle
  refine nd_bind _ _ (nd_peek32 r) (fun pk _ => ?_)
  split
  · refine nd_bind _ _ (nd_readVec8 r) (fun g _ => ?_)
    refine nd_bind _ _ (nd_xteaDecrypt g.1) (fun t _ => ?_)
    split <;> rfl
  · exact nd_bind _ _ (nd_seek r (r.cursor + 4)) (fun g _ => rfl)

theorem nd_convOneLang (d : DLGE) (meta : ResourceMeta) (wavHash : Nat) (language : String)
    (r : ByteReader) (wav : WavFileJ) :
    notDNREOF (convOneLang d meta wavHash language r wav) = true := by
  unfold convOneLang
  refine nd_bind _ _ (nd_readLangPad d r) (fun a _ => ?_)
  refine nd_bind _ _ (nd_read32 a) (fun b _ => ?_)
  refine nd_bind _ _ (nd_read32 b.2) (fun c _ => ?_)
  refine nd_bind _ _ (nd_convLangRefs d meta wavHash language wav b.1 c.1) (fun e _ => ?_)
  exact nd_bind _ _ (nd_convLangSubtitle e.2 c.2) (fun g _ => rfl)

theorem nd_convWavLangs (d : DLGE) (meta : ResourceMeta) (wavHash : Nat) (l : List String)
    (r : ByteReader) (wav : WavFileJ) :
    notDNREOF (convWavLangs d meta wavHash l r wav) = true := by
  induction l generalizing r wav with
  | nil => rfl
  | cons language rest ih =>
    unfold convWavLangs
    refine nd_bind _ _ (nd_convOneLang d meta wavHash language r wav) (fun a _ => ?_)
    exact ih a.2 a.1



theorem nd_convRandomMeta (d : DLGE) :
    ∀ (ms : List MetadataRec) (pool : List (Nat × WavFileJ)) (acc : List DlgeType),
      notDNREOF (convRandomMeta d ms pool acc) = true := by
  intro ms
  induction ms with
  | nil => intro pool acc; rfl
  | cons m rest ih =>
    intro pool acc
    simp only [convRandomMeta, pure_bind]
    repeat' split
    all_goals first | rfl | exact ih _ _

theorem nd_convSwitchMeta (d : DLGE) :
    ∀ (ms : List MetadataRec) (wp : List (Nat × WavFileJ))
      (rp : List (Nat × (Option (List String) × List DlgeType))) (acc : List DlgeType),
      notDNREOF (convSwitchMeta d ms wp rp acc) = true := by
  intro ms
  induction ms with
  | nil => intro wp rp acc; rfl
  | cons m rest ih =>
    intro wp rp acc
    simp only [convSwitchMeta, pure_bind]
    repeat' split
    all_goals first | rfl | exact ih _ _ _

theorem nd_convSeqMeta :
    ∀ (ms : List MetadataRec) (cm : ContainerMapM) (gl : List (Nat × Nat)) (acc : List DlgeType),
      notDNREOF (convSeqMeta ms cm gl acc) = true := by
  intro ms
  induction ms with
  | nil => intro cm gl acc; rfl
  | cons m rest ih =>
    intro cm gl acc
    simp only [convSeqMeta, pure_bind]
    repeat' split
    all_goals first | rfl | exact ih _ _ _

theorem nd_convertStep (d : DLGE) (meta : ResourceMeta) (st : ConvSt) :
    notDNREOF (convertStep d meta st) = true := by
  unfold convertStep
  refine nd_bind _ _ (nd_peek8 st.rd) (fun p _ => ?_)
  split
  · refine nd_bind _ _ (nd_seek _ _) (fun r1 _ => ?_)
    refine nd_bind _ _ (nd_read32 r1) (fun a _ => ?_)
    refine nd_bind _ _ (nd_read32 a.2) (fun b _ => ?_)
    refine nd_bind _ _ (nd_readHeaderPad d b.2) (fun r2 _ => ?_)
    exact nd_bind _ _ (nd_convWavLangs d meta b.1 d.lang_map r2 _) (fun w _ => rfl)
  · split
    · refine nd_bind _ _ (nd_containerRead st.rd) (fun cr _ => ?_)
      exact nd_bind _ _ (nd_convRandomMeta d cr.1.metadata st.cmap.wav []) (fun pk _ => rfl)
    · split
      · refine nd_bind _ _ (nd_containerRead st.rd) (fun cr _ => ?_)
        exact nd_bind _ _ (nd_convSwitchMeta d cr.1.metadata st.cmap.wav st.cmap.random [])
          (fun wk _ => rfl)
      · split
        · refine nd_bind _ _ (nd_containerRead st.rd) (fun cr _ => ?_)
          exact nd_bind _ _ (nd_convSeqMeta cr.1.metadata st.cmap st.globals []) (fun ck _ => rfl)
        · rfl

theorem nd_convertLoop (fuel : Nat) (d : DLGE) (meta : ResourceMeta) (st : ConvSt) :
    notDNREOF (convertLoop fuel d meta st) = true := by
  induction fuel generalizing st with
  | zero => rfl
  | succ n ih =>
    unfold convertLoop
    split
    · rfl
    · exact nd_bind _ _ (nd_convertStep d meta st) (fun st1 _ => ih st1)

theorem nd_resolveRoot (st : ConvSt) (root : Nat) : notDNREOF (resolveRoot st root) = true := by
  simp only [resolveRoot]
  repeat' split
  all_goals rfl

theorem convertLoop_ok_remaining :
    ∀ (fuel : Nat) (d : DLGE) (meta : ResourceMeta) (st st2 : ConvSt),
      convertLoop fuel d meta st = .ok st2 → st2.rd.remaining = 2 := by
  intro fuel
  induction fuel with
  | zero => intro d meta st st2 h; exact Except.noConfusion h
  | succ n ih =>
    intro d meta st st2 h
    unfold convertLoop at h
    split at h
    next hr =>
      cases h
      assumption
    next hr =>
      cases hcs : convertStep d meta st with
      | error e =>
        rw [hcs] at h
        exact Except.noConfusion h
      | ok st1 =>
        rw [hcs] at h
        exact ih d meta st1 st2 h

theorem nd_dlgeConvert (d : DLGE) (data : List Nat) (meta : ResourceMeta) :
    notDNREOF (dlgeConvert d data meta) = true := by
  unfold dlgeConvert
  refine nd_bind _ _ (nd_read32 _) (fun a _ => ?_)
  refine nd_bind _ _ (nd_depIndexPanic meta a.1) (fun dep1 _ => ?_)
  refine nd_bind _ _ (nd_read32 a.2) (fun b _ => ?_)
  refine nd_bind _ _ (nd_depIndexPanic meta b.1) (fun dep2 _ => ?_)
  refine nd_bind _ _ (nd_convertLoop _ d meta _) (fun st hst => ?_)
  have h2 : st.rd.size - st.rd.cursor = 2 := convertLoop_ok_remaining _ d meta _ st hst
  rw [if_neg (by rw [h2]; exact fun hne => hne rfl)]
  refine nd_bind _ _ (nd_read16 st.rd) (fun rt _ => ?_)
  exact nd_bind _ _ (nd_resolveRoot st rt.1) (fun rc _ => rfl)

/-! ## Claim theorems (concrete evaluations) -/

/-- C1. Byte idempotence fails on the code as written: bytesC1 is a valid
stream (it decodes, and its only symbol-table hash 0x11 resolves to TAG),
yet rebuilding its decoded document does not reproduce it. The fr-slot
override paths are re-registered with the Dependency Resolver as the
JSON-quoted strings produced by serde_json Value::to_string, so they miss
the existing unquoted entries and receive fresh indices 2 and 3 where the
original stream had 0 and 1. -/
theorem C1_idempotence_broken :
    dlgeConvert dlgeEnFr bytesC1 metaDC = .ok docC1 ∧
    (dlgeRebuild 100 dlgeEnFr docC1).1 = .ok rebuiltC1 ∧
    rebuiltC1.file ≠ bytesC1 :=
  ⟨rfl, rfl, by decide⟩

/-- C2 counterexample. Decoding a Sequence whose metadata entry of type
Random references global index 0 with an empty globals map panics (IndexMap
bracket indexing on a missing key), instead of returning the typed
invalid-reference error the claim requires for every unpopulated
reference. -/
theorem C2_counterexample :
    dlgeConvert dlgeEn bytesC2b metaDC = .error .panicked := rfl

/-- C2 amended. Pool-membership violations inside the Random / Switch /
Sequence arms surface as typed InvalidReference errors (entry a), but a
Sequence metadata entry of type Random or Switch whose packed index was
never recorded as a global index panics (entry d), and a root tag whose
index resolves to no recorded global also panics (entry c). -/
theorem C2_amended :
    dlgeConvert dlgeEn bytesC2a metaDC = .error (.lang (.invalidReference 0)) ∧
    dlgeConvert dlgeEn bytesC2d metaDC = .error .panicked ∧
    dlgeConvert dlgeEn bytesC2c metaDC = .error .panicked :=
  ⟨rfl, rfl, rfl⟩

/-- C3 counterexample. A document containing two Sequence nodes (the inner
one as first child of the root Sequence) is rejected, but with
InvalidReference 0x15 raised by the child-index match after the inner
Sequence was emitted, not with the invalid-container error the claim
states. -/
theorem C3_counterexample :
    (dlgeRebuild 100 dlgeDefault docSeqFirst).1 = .error (.lang (.invalidReference 0x15)) := rfl

/-- C4 counterexample. When emission fails (here with InvalidReference
0x15), rebuild propagates the error without restoring the language map:
the instance keeps the document override [aa, bb] instead of its original
H3 default map. -/
theorem C4_counterexample :
    (dlgeRebuild 100 dlgeDefault docC4err).1 = .error (.lang (.invalidReference 0x15)) ∧
    (dlgeRebuild 100 dlgeDefault docC4err).2.lang_map = ["aa", "bb"] ∧
    dlgeDefault.lang_map ≠ ["aa", "bb"] :=
  ⟨rfl, rfl, by decide⟩

/-- C5. A Sequence containing one Random followed by one Switch encodes
and decodes through their shared global indices: the Sequence metadata
entries in bytesC5 are 0x2000 (type Random, global index 0) and 0x3001
(type Switch, global index 1) - not 0x3000, which the Switch local index 0
would give - and the root tag 0x4002 carries the Sequence global index 2.
Rebuild reproduces the stream byte for byte and convert decodes it back to
the same document. -/
theorem C5_global_indices :
    (dlgeRebuild 100 dlgeDefault docC5).1 = .ok ⟨bytesC5, [("D", "1F"), ("C", "1F")]⟩ ∧
    dlgeConvert dlgeDefault bytesC5 metaDC = .ok docC5 :=
  ⟨rfl, rfl⟩

/-- C6 counterexample. Rebuilding a WavFile whose soundtag is absent from
the symbol table panics (Option::unwrap on get_by_right), instead of
falling back to a content hash of the symbol string as the claim states. -/
theorem C6_counterexample :
    (dlgeRebuild 100 dlgeEn docC6missing2).1 = .error .panicked := rfl

/-- C6 amended. The tag-symbol hash is resolved through the symbol table
(TAG emits its table hash 0x11), and the deterministic content-hash
fallback exists for the NAME hash (a non-hex name zz emits
crc32("zz") = 0x24D91BA1), but a soundtag missing from the table makes the
encoder panic rather than fall back. -/
theorem C6_amended :
    (dlgeRebuild 100 dlgeEn docC6ok).1 = .ok ⟨bytesC6ok, [("D", "1F"), ("C", "1F")]⟩ ∧
    (dlgeRebuild 100 dlgeEn docC6crc).1 = .ok ⟨bytesC6crc, [("D", "1F"), ("C", "1F")]⟩ ∧
    (dlgeRebuild 100 dlgeEn docC6missing).1 = .error .panicked :=
  ⟨rfl, rfl, rfl⟩

/-- C7. When the default-locale subtitle is the empty string the encoder
writes the 32-bit zero marker AND a zero-length sized payload - eight zero
bytes after the audio/effects indices - because the is_empty branch falls
through to write_sized_vec; with no entry at all it writes exactly one
marker. The claim (exactly one marker in both cases) matches the evident
intent of the is_empty check but not the code. -/
theorem C7_empty_subtitle_double_marker :
    (dlgeRebuild 100 dlgeEn docC7empty).1 = .ok ⟨bytesC7empty, depsC7⟩ ∧
    (dlgeRebuild 100 dlgeEn docC7absent).1 = .ok ⟨bytesC7absent, depsC7⟩ ∧
    bytesC7empty ≠ bytesC7absent :=
  ⟨rfl, rfl, by decide⟩

/-- C9. In non-hex-precision mode the weight hash 0xFFFFFF decodes to the
fraction 1 exactly (within any floating-point tolerance of 1.0; the f64
division 0xFFFFFF/0xFFFFFF is exact) and the weight 1 re-encodes to
0xFFFFFF, reproducing the stream byte for byte; the hash 0x000000
round-trips to 0 the same way. -/
theorem C9_weight_range :
    dlgeConvert dlgeEn bytesC9one metaDC = .ok docC9one ∧
    (dlgeRebuild 100 dlgeEn docC9one).1 = .ok ⟨bytesC9one, [("D", "1F"), ("C", "1F")]⟩ ∧
    dlgeConvert dlgeEn bytesC9zero metaDC = .ok docC9zero ∧
    (dlgeRebuild 100 dlgeEn docC9zero).1 = .ok ⟨bytesC9zero, [("D", "1F"), ("C", "1F")]⟩ :=
  ⟨rfl, rfl, rfl, rfl⟩

/-- C10. DLGE::convert indexes the dependency list with stream-supplied
indices without bounds checks: a leading DITL index of 5 against an empty
dependency list panics, and a default-locale slot referencing indices 7
and 8 against a two-entry list panics - neither returns a LangError. -/
theorem C10_unchecked_dependency_indices :
    dlgeConvert dlgeEn bytesC10head metaEmpty = .error .panicked ∧
    dlgeConvert dlgeEn bytesC10lang metaDC = .error .panicked :=
  ⟨rfl, rfl⟩

/-- C3 amended. Any document containing two Switch nodes or two Sequence
nodes fails to rebuild, for every fuel and instance - but the error is not
always InvalidContainer: a second Switch is rejected with
InvalidContainer(0x03) and a duplicate Sequence following an earlier
sibling with InvalidContainer(0x04), while a Sequence whose FIRST child is
a Sequence fails with InvalidReference(0x15) after the inner Sequence was
already emitted; a document with a single Switch inside a single Sequence
passes the singleton checks and encodes successfully. -/
theorem C3_amended :
    (∀ (fuel : Nat) (d : DLGE) (doc : DlgeJson),
        2 ≤ countSwitch doc.root ∨ 2 ≤ countSeq doc.root →
        rebuildOk (dlgeRebuild fuel d doc) = false) ∧
    (dlgeRebuild 100 dlgeDefault docTwoSwitch).1 = .error (.lang (.invalidContainer 3)) ∧
    (dlgeRebuild 100 dlgeDefault docSeqLater).1 = .error (.lang (.invalidContainer 4)) ∧
    (dlgeRebuild 100 dlgeDefault docSeqFirst).1 = .error (.lang (.invalidReference 0x15)) ∧
    (dlgeRebuild 100 dlgeDefault docSingle).1 = .ok ⟨bytesSingle, [("D", "1F"), ("C", "1F")]⟩ := by
  refine ⟨?_, rfl, rfl, rfl, rfl⟩
  intro fuel d doc hcount
  by_contra hok
  have hok2 : rebuildOk (dlgeRebuild fuel d doc) = true := by
    cases hrb : rebuildOk (dlgeRebuild fuel d doc)
    · exact absurd hrb hok
    · rfl
  obtain ⟨st, s, m, hpc⟩ := rebuild_ok_procC fuel d doc hok2
  obtain ⟨-, hb, hc⟩ := procCInv fuel st _ s m hpc
  simp only [SwPost, SeqPost] at hb hc
  rcases hcount with hcount | hcount
  · rcases hb with ⟨hb1, -⟩ | ⟨hb1, -⟩ <;> omega
  · rcases hc with ⟨hc1, -⟩ | ⟨hc1, -⟩ <;> omega

/-- C3 witness: the universal ban applied to the concrete two-Switch
document. -/
theorem C3_witness :
    rebuildOk (dlgeRebuild 100 dlgeDefault docTwoSwitch) = false :=
  C3_amended.1 100 dlgeDefault docTwoSwitch
    (Or.inl (by simp [docTwoSwitch, mkDoc, countSwitch, countSwitchL]))

/-- C4 amended. The language-map override is restored on every successful
exit of rebuild (for every fuel, instance and document), but when emission
propagates an error the instance keeps the document override, as shown on
the concrete failing document with override [aa, bb]. -/
theorem C4_amended :
    (∀ (fuel : Nat) (d : DLGE) (doc : DlgeJson) (r : Rebuilt) (d2 : DLGE),
        dlgeRebuild fuel d doc = (.ok r, d2) → d2.lang_map = d.lang_map) ∧
    (dlgeRebuild 100 dlgeDefault docC4err).2.lang_map = ["aa", "bb"] :=
  ⟨C4_amended_core, rfl⟩

/-- C4 witness: a concrete successful rebuild with a langmap override whose
final instance state has the original language map. -/
theorem C4_witness :
    dlgeRebuild 100 dlgeDefault docC4ok = (.ok rebuiltC4ok, dC4end) ∧
      dC4end.lang_map = dlgeDefault.lang_map :=
  ⟨rfl, C4_amended.1 100 dlgeDefault docC4ok rebuiltC4ok dC4end rfl⟩

/-- C8 counterexample. A stream whose records do not leave the cursor
exactly on the trailing 2-byte root tag - here a truncated WavFile record
after the header - does not fail with DidNotReachEOF as the claim states:
it fails inside the decode loop with a byte-reader error. -/
theorem C8_counterexample :
    dlgeConvert dlgeEn bytesC8bad metaDC = .error (.lang (.byteReaderError .noBytes)) ∧
    isDNREOF (dlgeConvert dlgeEn bytesC8bad metaDC) = false :=
  ⟨rfl, rfl⟩

/-- C8 amended. The DidNotReachEOF branch of DLGE::convert is dead code:
no input at all - no instance, data buffer or metadata - makes convert
return that error, because whenever the decode loop returns normally
exactly two bytes remain ahead of the cursor, so the end-of-stream check
after the loop never fires, and no arm of the loop or of the root
resolution raises it; a stream that does not end exactly on the root tag
instead fails inside the loop with another error. -/
theorem C8_amended :
    (∀ (d : DLGE) (data : List Nat) (meta : ResourceMeta),
        isDNREOF (dlgeConvert d data meta) = false) ∧
    (∀ (fuel : Nat) (d : DLGE) (meta : ResourceMeta) (st st2 : ConvSt),
        convertLoop fuel d meta st = .ok st2 → st2.rd.remaining = 2) := by
  refine ⟨?_, convertLoop_ok_remaining⟩
  intro d data meta
  have h := nd_dlgeConvert d data meta
  cases hr : dlgeConvert d data meta with
  | ok j => rfl
  | error e =>
    rw [hr] at h
    cases e with
    | lang le => cases le <;> first | rfl | exact absurd h (by simp [notDNREOF])
    | panicked => rfl
    | fuel => rfl

/-- C8 witness: the no-DidNotReachEOF statement at the concrete malformed
stream, and the loop-exit invariant applied at a concrete state with two
remaining bytes, on which the loop returns immediately. -/
theorem C8_witness :
    isDNREOF (dlgeConvert dlgeEn (le4 0 ++ le4 1 ++ [2]) metaDC) = false ∧
      stRem2.rd.remaining = 2 :=
  ⟨C8_amended.1 dlgeEn (le4 0 ++ le4 1 ++ [2]) metaDC,
   C8_amended.2 1 dlgeEn metaDC stRem2 stRem2 rfl⟩

end TT
